import Mathlib

/-! # OOP design-pattern samples (Go): a shallow embedding

Each sample of the catalogue is embedded in its own namespace.  Go objects that
are mutated through pointers become explicit state that is passed in and
returned; standard output becomes a list of printed lines.
-/

/-! ## Builder (`Builder.go`) -/

namespace BuilderPattern

/-- The Go struct `Product1`: the list of accumulated part names. -/
structure Product1 where
  parts : List String
  deriving DecidableEq, Repr

/-- The method `Product1.listParts`: the line it prints
(`strings.Join` is `String.intercalate`). -/
def listParts (p : Product1) : String :=
  "Product parts: " ++ String.intercalate ", " p.parts

/-- The Go struct `ConcreteBuilder1`; the builder is mutated through a pointer,
so every method returns the new builder state. -/
structure ConcreteBuilder1 where
  product : Product1
  deriving DecidableEq, Repr

/-- The constructor `newConcreteBuilder1`: `&ConcreteBuilder1{}`, whose product
has the zero value (a nil slice, that is no parts). -/
def newConcreteBuilder1 : ConcreteBuilder1 :=
  { product := { parts := [] } }

/-- The function `getBuilder`. -/
def getBuilder : ConcreteBuilder1 := newConcreteBuilder1

/-- The method `ProducePartA`: `append(b.product.parts, "PartA1")`. -/
def ProducePartA (b : ConcreteBuilder1) : ConcreteBuilder1 :=
  { product := { parts := b.product.parts ++ ["PartA1"] } }

/-- The method `ProducePartB`: `append(b.product.parts, "PartB1")`. -/
def ProducePartB (b : ConcreteBuilder1) : ConcreteBuilder1 :=
  { product := { parts := b.product.parts ++ ["PartB1"] } }

/-- The method `ProducePartC`: `append(b.product.parts, "PartC1")`. -/
def ProducePartC (b : ConcreteBuilder1) : ConcreteBuilder1 :=
  { product := { parts := b.product.parts ++ ["PartC1"] } }

/-- The method `GetProduct`: the returned product takes the accumulated parts and
the builder's product is replaced by `Product1{}`.  The result is the pair of the
returned product and the builder afterwards. -/
def GetProduct (b : ConcreteBuilder1) : Product1 × ConcreteBuilder1 :=
  let result : Product1 := { parts := b.product.parts }
  (result, { product := { parts := [] } })

/-- The method `Director.BuildMinimalViableProduct`, acting on the director's builder. -/
def BuildMinimalViableProduct (b : ConcreteBuilder1) : ConcreteBuilder1 :=
  ProducePartA b

/-- The method `Director.BuildFullFeaturedProduct`, acting on the director's builder. -/
def BuildFullFeaturedProduct (b : ConcreteBuilder1) : ConcreteBuilder1 :=
  ProducePartC (ProducePartB (ProducePartA b))

/-- The function `ClientCode`: the three products it obtains from `GetProduct`, in
order, the lines it prints, and the builder at the end. -/
def ClientCode : List Product1 × List String × ConcreteBuilder1 :=
  let builder := getBuilder
  let out := ["Standard basic product:"]
  let builder := BuildMinimalViableProduct builder
  let r1 := GetProduct builder
  let out := out ++ [listParts r1.1, ""]
  let out := out ++ ["Standard full featured product:"]
  let builder := BuildFullFeaturedProduct r1.2
  let r2 := GetProduct builder
  let out := out ++ [listParts r2.1, ""]
  let out := out ++ ["Custom product:"]
  let builder := ProducePartC (ProducePartA r2.2)
  let r3 := GetProduct builder
  let out := out ++ [listParts r3.1]
  ([r1.1, r2.1, r3.1], out, r3.2)

/-- One of the three part-producing calls of the `Builder` interface. -/
inductive ProduceCall where
  | partA
  | partB
  | partC
  deriving DecidableEq, Repr

/-- Performs one part-producing call on the builder. -/
def ProduceCall.run (c : ProduceCall) (b : ConcreteBuilder1) : ConcreteBuilder1 :=
  match c with
  | .partA => ProducePartA b
  | .partB => ProducePartB b
  | .partC => ProducePartC b

/-- The part name that the call appends. -/
def ProduceCall.partName : ProduceCall → String
  | .partA => "PartA1"
  | .partB => "PartB1"
  | .partC => "PartC1"

/-- Performs a sequence of part-producing calls, first call first. -/
def runCalls (cs : List ProduceCall) (b : ConcreteBuilder1) : ConcreteBuilder1 :=
  cs.foldl (fun acc c => c.run acc) b

end BuilderPattern

/-! ## Flyweight (`Flyweight.go`) -/

namespace FlyweightPattern

/-- The constant `TerroristDressType`. -/
def TerroristDressType : String := "tDress"

/-- The constant `CounterTerrroristDressType`. -/
def CounterTerrroristDressType : String := "ctDress"

/-- A dress object in memory: a `TerroristDress` or a `CounterTerroristDress`
struct with its `color` field. -/
inductive DressObject where
  | TerroristDress (color : String)
  | CounterTerroristDress (color : String)
  deriving DecidableEq, Repr

/-- A value of the interface `Dress`: `none` is the nil interface, `some a` is the
pointer to the dress object at address `a`.  Two values are the identical
instance exactly when they are the same address. -/
abbrev Dress := Option Nat

/-- The Go struct `DressFactory`; the Go map is a list of entries with distinct
keys, in insertion order. -/
structure DressFactory where
  dressMap : List (String × Dress)
  deriving DecidableEq, Repr

/-- The program state of the sample: the allocated dress objects (the address of
an object is its position) and the package variable `dressFactorySingleInstance`. -/
structure World where
  heap : List DressObject
  dressFactorySingleInstance : DressFactory
  deriving DecidableEq, Repr

/-- The state at program start: nothing allocated and `make(map[string]Dress)`. -/
def World.init : World :=
  { heap := [], dressFactorySingleInstance := { dressMap := [] } }

/-- Reading `m[k]` of a Go map: the stored value, or nil for an absent key. -/
def mapGet : List (String × Dress) → String → Dress
  | [], _ => none
  | (k', v) :: rest, k => if k' = k then v else mapGet rest k

/-- The assignment `m[k] = v` of a Go map. -/
def mapSet : List (String × Dress) → String → Dress → List (String × Dress)
  | [], k, v => [(k, v)]
  | (k', v') :: rest, k, v =>
    if k' = k then (k, v) :: rest else (k', v') :: mapSet rest k v

/-- The constructor `newTerroristDress`: allocates `&TerroristDress{color: "red"}`
and returns its address with the new memory. -/
def newTerroristDress (heap : List DressObject) : Nat × List DressObject :=
  (heap.length, heap ++ [DressObject.TerroristDress "red"])

/-- The constructor `newCounterTerroristDress`: allocates
`&CounterTerroristDress{color: "green"}`. -/
def newCounterTerroristDress (heap : List DressObject) : Nat × List DressObject :=
  (heap.length, heap ++ [DressObject.CounterTerroristDress "green"])

/-- The method `getColor` of both dress types, on the object itself. -/
def DressObject.getColor : DressObject → String
  | .TerroristDress color => color
  | .CounterTerroristDress color => color

/-- The result pair `(Dress, error)` of `getDressByType`; `err = none` is the nil
error and `some msg` an error with message `msg`. -/
structure DressResult where
  dress : Dress
  err : Option String
  deriving DecidableEq, Repr

/-- The method `DressFactory.getDressByType`, called on the single factory
instance: the returned pair and the state afterwards. -/
def getDressByType (w : World) (dressType : String) : DressResult × World :=
  let d := w.dressFactorySingleInstance
  if mapGet d.dressMap dressType ≠ none then
    ({ dress := mapGet d.dressMap dressType, err := none }, w)
  else if dressType = TerroristDressType then
    let a := newTerroristDress w.heap
    let d1 : DressFactory := { dressMap := mapSet d.dressMap dressType (some a.1) }
    ({ dress := mapGet d1.dressMap dressType, err := none },
     { heap := a.2, dressFactorySingleInstance := d1 })
  else if dressType = CounterTerrroristDressType then
    let a := newCounterTerroristDress w.heap
    let d1 : DressFactory := { dressMap := mapSet d.dressMap dressType (some a.1) }
    ({ dress := mapGet d1.dressMap dressType, err := none },
     { heap := a.2, dressFactorySingleInstance := d1 })
  else
    ({ dress := none, err := some "Wrong dress type passed" }, w)

/-- The state reached from the start state by calling `getDressByType` with the
given keys, first key first. -/
def reach (keys : List String) : World :=
  keys.foldl (fun w k => (getDressByType w k).2) World.init

/-- Every key that the cache answers with a non-nil dress is one of the two dress
types. -/
def KeysKnown (w : World) : Prop :=
  ∀ k, mapGet w.dressFactorySingleInstance.dressMap k ≠ none →
    k = TerroristDressType ∨ k = CounterTerrroristDressType

end FlyweightPattern

/-! ## Mediator (`Mediator.go`) -/

namespace MediatorPattern

/-- The two concrete components implementing the interface `Train`. -/
inductive TrainKind where
  | PassengerTrain
  | FreightTrain
  deriving DecidableEq, Repr

/-- A value of the interface `Train`: a pointer to a train object.  `addr` is the
address of the object, `kind` its concrete type and `mediator` the address of the
`StationManager` held in its `mediator` field (set once, at construction). -/
structure Train where
  kind : TrainKind
  addr : Nat
  mediator : Nat
  deriving DecidableEq, Repr

/-- The type name as it appears in the printed lines. -/
def TrainKind.label : TrainKind → String
  | .PassengerTrain => "PassengerTrain"
  | .FreightTrain => "FreightTrain"

/-- The Go struct `StationManager`. -/
structure StationManager where
  isPlatformFree : Bool
  trainQueue : List Train
  deriving DecidableEq, Repr

/-- The constructor `newStationManger`. -/
def newStationManger : StationManager :=
  { isPlatformFree := true, trainQueue := [] }

/-- The program state: the station manager stored at each address, the lines
printed so far, and the ghost field `onPlatform`, which no operation reads: the
trains whose `arrive` has been granted and that have not called their own
`depart` since. -/
structure World where
  managers : Nat → StationManager
  out : List String
  onPlatform : List Train

/-- The start state: nothing printed, no train on a platform, and behind every
address a manager as `newStationManger` returns it. -/
def World.init : World :=
  { managers := fun _ => newStationManger, out := [], onPlatform := [] }

/-- Stores the manager state `s` at address `m`. -/
def World.setManager (w : World) (m : Nat) (s : StationManager) : World :=
  { w with managers := fun a => if a = m then s else w.managers a }

/-- The call `fmt.Println(line)`. -/
def World.println (w : World) (line : String) : World :=
  { w with out := w.out ++ [line] }

/-- The method `StationManager.canArrive`: the returned boolean and the manager
afterwards. -/
def canArrive (s : StationManager) (t : Train) : Bool × StationManager :=
  if s.isPlatformFree then
    (true, { s with isPlatformFree := false })
  else
    (false, { s with trainQueue := s.trainQueue ++ [t] })

/-- The methods `PassengerTrain.arrive` and `FreightTrain.arrive`.  When the
arrival is granted the ghost field records the train. -/
def arrive (t : Train) (w : World) : World :=
  let r := canArrive (w.managers t.mediator) t
  let w1 := w.setManager t.mediator r.2
  if !r.1 then
    w1.println (t.kind.label ++ ": Arrival blocked, waiting")
  else
    { w1.println (t.kind.label ++ ": Arrived") with onPlatform := w1.onPlatform ++ [t] }

/-- The methods `PassengerTrain.permitArrival` and `FreightTrain.permitArrival`. -/
def permitArrival (t : Train) (w : World) : World :=
  match t.kind with
  | .PassengerTrain => arrive t (w.println "PassengerTrain: Arrival permitted, arriving")
  | .FreightTrain => arrive t (w.println "FreightTrain: Arrival permitted")

/-- The line that `permitArrival` prints for a train of the given type. -/
def TrainKind.permitLine : TrainKind → String
  | .PassengerTrain => "PassengerTrain: Arrival permitted, arriving"
  | .FreightTrain => "FreightTrain: Arrival permitted"

/-- The method `StationManager.notifyAboutDeparture` of the manager at address `m`. -/
def notifyAboutDeparture (m : Nat) (w : World) : World :=
  let s := w.managers m
  let s1 : StationManager := if !s.isPlatformFree then { s with isPlatformFree := true } else s
  match s1.trainQueue with
  | [] => w.setManager m s1
  | firstTrainInQueue :: rest =>
    permitArrival firstTrainInQueue (w.setManager m { s1 with trainQueue := rest })

/-- The methods `PassengerTrain.depart` and `FreightTrain.depart`.  The ghost field
drops the departing train before the manager is notified. -/
def depart (t : Train) (w : World) : World :=
  let w1 := { w.println (t.kind.label ++ ": Leaving") with
              onPlatform := w.onPlatform.filter (fun x => x ≠ t) }
  notifyAboutDeparture t.mediator w1

/-- The function `main`: the manager lives at address 0, the passenger train at
address 0 and the freight train at address 1. -/
def main : World :=
  let passengerTrain : Train := { kind := .PassengerTrain, addr := 0, mediator := 0 }
  let freightTrain : Train := { kind := .FreightTrain, addr := 1, mediator := 0 }
  depart passengerTrain (arrive freightTrain (arrive passengerTrain World.init))

/-- A call that a client makes on a train. -/
inductive Call where
  | arrive (t : Train)
  | depart (t : Train)
  deriving DecidableEq, Repr

/-- The train on which the call is made. -/
def Call.train : Call → Train
  | .arrive t => t
  | .depart t => t

/-- Performs one call. -/
def Call.run (c : Call) (w : World) : World :=
  match c with
  | .arrive t => MediatorPattern.arrive t w
  | .depart t => MediatorPattern.depart t w

/-- Performs a sequence of calls, first call first. -/
def runCalls (cs : List Call) (w : World) : World :=
  cs.foldl (fun acc c => c.run acc) w

/-- The calls respect the platform protocol from state `w` on: every `depart` is
made by a train that is on the platform at that moment. -/
def departsFromPlatform : List Call → World → Bool
  | [], _ => true
  | c :: cs, w =>
    (match c with
     | .arrive _ => true
     | .depart t => decide (t ∈ w.onPlatform)) && departsFromPlatform cs (c.run w)

/-- The invariant behind mutual exclusion at the manager at address `m`: the
platform flag says free exactly when no train is on the platform, at most one
train is on the platform, and every queued train is registered to `m`. -/
def PlatformInv (m : Nat) (w : World) : Prop :=
  ((w.managers m).isPlatformFree = true ↔ w.onPlatform = []) ∧
  w.onPlatform.length ≤ 1 ∧
  ∀ q ∈ (w.managers m).trainQueue, q.mediator = m

end MediatorPattern

/-! ## Decorator (`Decorator.go`) -/

namespace DecoratorPattern

/-- A value of the interface `IPizza`: the concrete component `VeggieMania`, or
one of the two concrete decorators around the pizza held in its `pizza` field. -/
inductive IPizza where
  | VeggieMania
  | TomatoTopping (pizza : IPizza)
  | CheeseTopping (pizza : IPizza)
  deriving DecidableEq, Repr

/-- The three `getPrice` methods.  Go's `int` is modelled by `Int`: a price grows
by at most 10 for each nested call, and the depth of the nesting is bounded by the
goroutine stack long before a machine word could wrap. -/
def getPrice : IPizza → Int
  | .VeggieMania => 15
  | .TomatoTopping pizza =>
    let pizzaPrice := getPrice pizza
    pizzaPrice + 7
  | .CheeseTopping pizza =>
    let pizzaPrice := getPrice pizza
    pizzaPrice + 10

/-- The function `main`: the line it prints, with the price that `%d` formats. -/
def main : String :=
  let pizza := IPizza.VeggieMania
  let pizzaWithCheese := IPizza.CheeseTopping pizza
  let pizzaWithCheeseAndTomato := IPizza.TomatoTopping pizzaWithCheese
  "Price of veggeMania with tomato and cheese topping is "
    ++ toString (getPrice pizzaWithCheeseAndTomato)

/-- The number of `TomatoTopping` layers of a stack. -/
def tomatoLayers : IPizza → Nat
  | .VeggieMania => 0
  | .TomatoTopping pizza => tomatoLayers pizza + 1
  | .CheeseTopping pizza => tomatoLayers pizza

/-- The number of `CheeseTopping` layers of a stack. -/
def cheeseLayers : IPizza → Nat
  | .VeggieMania => 0
  | .TomatoTopping pizza => cheeseLayers pizza
  | .CheeseTopping pizza => cheeseLayers pizza + 1

end DecoratorPattern

/-! ## Visitor (`Visitor.go`) -/

namespace VisitorPattern

/-- The Go struct `Square`. -/
structure Square where
  side : Int
  deriving DecidableEq, Repr

/-- The Go struct `Circle`. -/
structure Circle where
  radius : Int
  deriving DecidableEq, Repr

/-- The Go struct `Rectangle`. -/
structure Rectangle where
  l : Int
  b : Int
  deriving DecidableEq, Repr

/-- A value of the interface `Shape`: one of the three concrete elements. -/
inductive Shape where
  | Square (s : VisitorPattern.Square)
  | Circle (c : VisitorPattern.Circle)
  | Rectangle (t : VisitorPattern.Rectangle)
  deriving DecidableEq, Repr

/-- A value of the interface `Visitor`: one of the two concrete visitors with its
fields. -/
inductive Visitor where
  | AreaCalculator (area : Int)
  | MiddleCoordinates (x : Int) (y : Int)
  deriving DecidableEq, Repr

/-- The state that a visit can change: the visitor (pointer receiver) and the
lines printed so far. -/
structure State where
  visitor : Visitor
  out : List String
  deriving DecidableEq, Repr

/-- The methods `visitForSquare` of the two visitors. -/
def visitForSquare (st : State) (_s : Square) : State :=
  match st.visitor with
  | .AreaCalculator _ => { st with out := st.out ++ ["Calculating area for square"] }
  | .MiddleCoordinates _ _ =>
    { st with out := st.out ++ ["Calculating middle point coordinates for square"] }

/-- The methods `visitForCircle` of the two visitors. -/
def visitForCircle (st : State) (_c : Circle) : State :=
  match st.visitor with
  | .AreaCalculator _ => { st with out := st.out ++ ["Calculating area for circle"] }
  | .MiddleCoordinates _ _ =>
    { st with out := st.out ++ ["Calculating middle point coordinates for circle"] }

/-- The methods `visitForrectangle` of the two visitors. -/
def visitForrectangle (st : State) (_t : Rectangle) : State :=
  match st.visitor with
  | .AreaCalculator _ => { st with out := st.out ++ ["Calculating area for rectangle"] }
  | .MiddleCoordinates _ _ =>
    { st with out := st.out ++ ["Calculating middle point coordinates for rectangle"] }

/-- The methods `Square.accept`, `Circle.accept` and `Rectangle.accept`. -/
def accept (sh : Shape) (st : State) : State :=
  match sh with
  | .Square s => visitForSquare st s
  | .Circle c => visitForCircle st c
  | .Rectangle t => visitForrectangle st t

/-- The methods `getType` of the three elements. -/
def getType : Shape → String
  | .Square _ => "Square"
  | .Circle _ => "Circle"
  | .Rectangle _ => "rectangle"

/-- The three handlers of the interface `Visitor`. -/
inductive Handler where
  | visitForSquare
  | visitForCircle
  | visitForrectangle
  deriving DecidableEq, Repr

/-- The handler written for the element's own type. -/
def Handler.ofShape : Shape → Handler
  | .Square _ => .visitForSquare
  | .Circle _ => .visitForCircle
  | .Rectangle _ => .visitForrectangle

/-- The line that the given handler of the given visitor prints. -/
def Handler.line (h : Handler) (v : Visitor) : String :=
  match h with
  | .visitForSquare =>
    ((VisitorPattern.visitForSquare { visitor := v, out := [] } { side := 0 }).out).headD ""
  | .visitForCircle =>
    ((VisitorPattern.visitForCircle { visitor := v, out := [] } { radius := 0 }).out).headD ""
  | .visitForrectangle =>
    ((VisitorPattern.visitForrectangle { visitor := v, out := [] } { l := 0, b := 0 }).out).headD ""

end VisitorPattern

/-! ## Abstract Factory (`AbstractFactory.go`) -/

namespace AbstractFactoryPattern

/-- A value of the interface `AbstractProductA`. -/
inductive AbstractProductA where
  | ConcreteProductA1
  | ConcreteProductA2
  deriving DecidableEq, Repr

/-- A value of the interface `AbstractProductB`. -/
inductive AbstractProductB where
  | ConcreteProductB1
  | ConcreteProductB2
  deriving DecidableEq, Repr

/-- A value of the interface `AbstractFactory`. -/
inductive AbstractFactory where
  | ConcreteFactory1
  | ConcreteFactory2
  deriving DecidableEq, Repr

/-- The methods `CreateProductA` of the two factories. -/
def CreateProductA : AbstractFactory → AbstractProductA
  | .ConcreteFactory1 => .ConcreteProductA1
  | .ConcreteFactory2 => .ConcreteProductA2

/-- The methods `CreateProductB` of the two factories. -/
def CreateProductB : AbstractFactory → AbstractProductB
  | .ConcreteFactory1 => .ConcreteProductB1
  | .ConcreteFactory2 => .ConcreteProductB2

/-- The methods `UsefulFunctionA` of the two A-products. -/
def UsefulFunctionA : AbstractProductA → String
  | .ConcreteProductA1 => "The result of the product A1."
  | .ConcreteProductA2 => "The result of the product A2."

/-- The methods `UsefulFunctionB` of the two B-products. -/
def UsefulFunctionB : AbstractProductB → String
  | .ConcreteProductB1 => "The result of the product B1."
  | .ConcreteProductB2 => "The result of the product B2."

/-- The methods `AnotherUsefulFunctionB` of the two B-products. -/
def AnotherUsefulFunctionB (product : AbstractProductB) (collaborator : AbstractProductA) :
    String :=
  match product with
  | .ConcreteProductB1 =>
    "The result of the B1 collaborating with the (" ++ UsefulFunctionA collaborator ++ ")"
  | .ConcreteProductB2 =>
    "The result of the B2 collaborating with the (" ++ UsefulFunctionA collaborator ++ ")"

/-- The function `ClientCode`: the lines it prints. -/
def ClientCode (factory : AbstractFactory) : List String :=
  let productA := CreateProductA factory
  let productB := CreateProductB factory
  [UsefulFunctionB productB, AnotherUsefulFunctionB productB productA]

/-- The string `s` occurs in `t` as a contiguous substring. -/
def IsSubstring (s t : String) : Prop :=
  s.data <:+: t.data

instance (s t : String) : Decidable (IsSubstring s t) :=
  inferInstanceAs (Decidable (s.data <:+: t.data))

end AbstractFactoryPattern

/-! ## Template Method (`TemplateMethod.go`) -/

namespace TemplateMethodPattern

/-- A value of the interface `IOtp`: the four methods of an implementation.  The
state `σ` is everything the implementation can read and change (its receiver and
standard output).  An `error` is `none` for nil and `some msg` otherwise. -/
structure IOtp (σ : Type) where
  genRandomOTP : Int → σ → String × σ
  saveOTPCache : String → σ → σ
  getMessage : String → σ → String × σ
  sendNotification : String → σ → Option String × σ

/-- The method `Otp.genAndSendOTP` of an `Otp` whose field `iOtp` holds the given
implementation: the returned error and the state afterwards. -/
def genAndSendOTP {σ : Type} (iOtp : IOtp σ) (otpLength : Int) (s : σ) : Option String × σ :=
  let r1 := iOtp.genRandomOTP otpLength s
  let otp := r1.1
  let s2 := iOtp.saveOTPCache otp r1.2
  let r3 := iOtp.getMessage otp s2
  let message := r3.1
  let r4 := iOtp.sendNotification message r3.2
  let err := r4.1
  if err ≠ none then
    (err, r4.2)
  else
    (none, r4.2)

/-- The concrete implementation `Sms`; its state is the list of printed lines. -/
def Sms : IOtp (List String) where
  genRandomOTP := fun _len out =>
    let randomOTP := "1234"
    (randomOTP, out ++ ["SMS: generating random otp " ++ randomOTP])
  saveOTPCache := fun otp out => out ++ ["SMS: saving otp: " ++ otp ++ " to cache"]
  getMessage := fun otp out => ("SMS OTP for login is " ++ otp, out)
  sendNotification := fun message out => (none, out ++ ["SMS: sending sms: " ++ message])

/-- The concrete implementation `Email`; its state is the list of printed lines. -/
def Email : IOtp (List String) where
  genRandomOTP := fun _len out =>
    let randomOTP := "1234"
    (randomOTP, out ++ ["EMAIL: generating random otp " ++ randomOTP])
  saveOTPCache := fun otp out => out ++ ["EMAIL: saving otp: " ++ otp ++ " to cache"]
  getMessage := fun otp out => ("EMAIL OTP for login is " ++ otp, out)
  sendNotification := fun message out => (none, out ++ ["EMAIL: sending email: " ++ message])

/-- The function `main`: the lines it prints. -/
def main : List String :=
  let out : List String := []
  let out := (genAndSendOTP Sms 4 out).2
  let out := out ++ [""]
  let out := (genAndSendOTP Email 4 out).2
  out

/-- A call of one of the four methods of `IOtp`, with its argument. -/
inductive MethodCall where
  | genRandomOTP (len : Int)
  | saveOTPCache (otp : String)
  | getMessage (otp : String)
  | sendNotification (message : String)
  deriving DecidableEq, Repr

/-- The implementation `impl` with a recorder around it: every method first notes
its call at the end of the record and then does what `impl` does. -/
def recorded {σ : Type} (impl : IOtp σ) : IOtp (σ × List MethodCall) where
  genRandomOTP := fun len s =>
    ((impl.genRandomOTP len s.1).1,
     ((impl.genRandomOTP len s.1).2, s.2 ++ [MethodCall.genRandomOTP len]))
  saveOTPCache := fun otp s =>
    (impl.saveOTPCache otp s.1, s.2 ++ [MethodCall.saveOTPCache otp])
  getMessage := fun otp s =>
    ((impl.getMessage otp s.1).1,
     ((impl.getMessage otp s.1).2, s.2 ++ [MethodCall.getMessage otp]))
  sendNotification := fun message s =>
    ((impl.sendNotification message s.1).1,
     ((impl.sendNotification message s.1).2, s.2 ++ [MethodCall.sendNotification message]))

end TemplateMethodPattern

/-! ## Flyweight: players and the game (`Flyweight.go`) -/

namespace FlyweightPattern

/-- The Go struct `Player`.  A `*Player` is modelled by the player it points to
(`none` for a nil pointer); the sample never compares player pointers. -/
structure Player where
  dress : Dress
  playerType : String
  lat : Int
  long : Int
  deriving DecidableEq, Repr

/-- The constructor `newPlayer`: the error of `getDressByType` is discarded, and the
fields `lat` and `long` keep their zero value. -/
def newPlayer (w : World) (playerType dressType : String) : Player × World :=
  let r := getDressByType w dressType
  ({ playerType := playerType, dress := r.1.dress, lat := 0, long := 0 }, r.2)

/-- The method `Player.newLocation`. -/
def newLocation (p : Player) (lat long : Int) : Player :=
  { p with lat := lat, long := long }

/-- The Go struct `game`. -/
structure game where
  terrorists : List (Option Player)
  counterTerrorists : List (Option Player)
  deriving DecidableEq, Repr

/-- The constructor `newGame`: `make([]*Player, 1)` is a slice of length 1 holding a
nil pointer. -/
def newGame : game :=
  { terrorists := [none], counterTerrorists := [none] }

/-- The method `game.addTerrorist`. -/
def addTerrorist (c : game) (w : World) (dressType : String) : game × World :=
  let player := newPlayer w "T" dressType
  ({ c with terrorists := c.terrorists ++ [some player.1] }, player.2)

/-- The method `game.addCounterTerrorist`. -/
def addCounterTerrorist (c : game) (w : World) (dressType : String) : game × World :=
  let player := newPlayer w "CT" dressType
  ({ c with counterTerrorists := c.counterTerrorists ++ [some player.1] }, player.2)

/-- The function `main` up to its final loop: the game and the program state after
the seven `add` calls.  (The loop then prints the cache entries in an order that
the Go runtime chooses.) -/
def main : game × World :=
  let g := (newGame, World.init)
  let g := addTerrorist g.1 g.2 TerroristDressType
  let g := addTerrorist g.1 g.2 TerroristDressType
  let g := addTerrorist g.1 g.2 TerroristDressType
  let g := addTerrorist g.1 g.2 TerroristDressType
  let g := addCounterTerrorist g.1 g.2 CounterTerrroristDressType
  let g := addCounterTerrorist g.1 g.2 CounterTerrroristDressType
  let g := addCounterTerrorist g.1 g.2 CounterTerrroristDressType
  g

/-- The call `dress.getColor()` in state `w`: the color of the object behind the
pointer (`none` when there is no such object). -/
def dressColor (w : World) (dress : Dress) : Option String :=
  match dress with
  | none => none
  | some a => (w.heap.get? a).map DressObject.getColor

/-- Calls `addTerrorist` once for each of the given dress types, in order. -/
def addTerrorists (dressTypes : List String) (g : game × World) : game × World :=
  dressTypes.foldl (fun acc d => addTerrorist acc.1 acc.2 d) g

/-- Calls `addCounterTerrorist` once for each of the given dress types, in order. -/
def addCounterTerrorists (dressTypes : List String) (g : game × World) : game × World :=
  dressTypes.foldl (fun acc d => addCounterTerrorist acc.1 acc.2 d) g

/-- The players that successive `newPlayer` calls with the given player type and
dress types return, starting in state `w`. -/
def playersOf (playerType : String) : List String → World → List Player
  | [], _ => []
  | d :: ds, w => (newPlayer w playerType d).1 :: playersOf playerType ds (newPlayer w playerType d).2

/-- The cache invariant: every entry has one of the two keys and points to an
allocated dress of the matching type and color, no key occurs twice, and every
allocated dress has its cache entry. -/
def CacheInv (w : World) : Prop :=
  (∀ e ∈ w.dressFactorySingleInstance.dressMap,
    (e.1 = TerroristDressType ∧
      ∃ a, e.2 = some a ∧ w.heap.get? a = some (DressObject.TerroristDress "red")) ∨
    (e.1 = CounterTerrroristDressType ∧
      ∃ a, e.2 = some a ∧ w.heap.get? a = some (DressObject.CounterTerroristDress "green"))) ∧
  (w.dressFactorySingleInstance.dressMap.map Prod.fst).Nodup ∧
  w.heap.length = w.dressFactorySingleInstance.dressMap.length

end FlyweightPattern

/-! ## Mediator: calls on the manager (`Mediator.go`) -/

namespace MediatorPattern

/-- A call made on a `StationManager` itself. -/
inductive ManagerCall where
  | canArrive (t : Train)
  | notifyAboutDeparture
  deriving DecidableEq, Repr

/-- Performs one call on the manager at address `m`, to completion. -/
def ManagerCall.run (m : Nat) (c : ManagerCall) (w : World) : World :=
  match c with
  | .canArrive t => w.setManager m (MediatorPattern.canArrive (w.managers m) t).2
  | .notifyAboutDeparture => MediatorPattern.notifyAboutDeparture m w

/-- Performs a sequence of calls on the manager at address `m`, first call first. -/
def runManagerCalls (m : Nat) (cs : List ManagerCall) (w : World) : World :=
  cs.foldl (fun acc c => c.run m acc) w

/-- Every train passed to `canArrive` in the calls is registered to the manager at
address `m`. -/
def registeredTo (m : Nat) : List ManagerCall → Bool
  | [] => true
  | .canArrive t :: cs => decide (t.mediator = m) && registeredTo m cs
  | .notifyAboutDeparture :: cs => registeredTo m cs

/-- The invariant of the wait queue of the manager at address `m`: the queued
trains are registered to `m`, and the queue is empty or the platform is not free. -/
def QueueInv (m : Nat) (w : World) : Prop :=
  (∀ q ∈ (w.managers m).trainQueue, q.mediator = m) ∧
  ((w.managers m).trainQueue = [] ∨ (w.managers m).isPlatformFree = false)

end MediatorPattern

/-! ## Iterator (`Iterator.go`) -/

namespace IteratorPattern

/-- The Go struct `User`. -/
structure User where
  name : String
  age : Int
  deriving DecidableEq, Repr

/-- A `*User`: `none` is the nil pointer and `some a` the pointer to the user at
address `a`. -/
abbrev UserPtr := Option Nat

/-- The Go struct `UserCollection`. -/
structure UserCollection where
  users : List UserPtr
  deriving DecidableEq, Repr

/-- The Go struct `UserIterator`. -/
structure UserIterator where
  index : Int
  users : List UserPtr
  deriving DecidableEq, Repr

/-- The method `UserCollection.createIterator`; the field `index` has its zero
value. -/
def createIterator (u : UserCollection) : UserIterator :=
  { index := 0, users := u.users }

/-- The method `UserIterator.hasNext`. -/
def hasNext (u : UserIterator) : Bool :=
  if u.index < (u.users.length : Int) then true else false

/-- The index expression `users[i]` of Go: `none` is the run-time panic for an
index out of range. -/
def sliceIndex (users : List UserPtr) (i : Int) : Option UserPtr :=
  if 0 ≤ i then users.get? i.toNat else none

/-- The method `UserIterator.getNext`: the returned pointer and the iterator
afterwards; `none` is a run-time panic. -/
def getNext (u : UserIterator) : Option (UserPtr × UserIterator) :=
  if hasNext u then
    match sliceIndex u.users u.index with
    | none => none
    | some user => some (user, { u with index := u.index + 1 })
  else
    some (none, u)

/-- Calls `getNext` `k` times in a row: the returned pointers in call order and the
iterator afterwards. -/
def getNextTimes : Nat → UserIterator → Option (List UserPtr × UserIterator)
  | 0, u => some ([], u)
  | k + 1, u =>
    match getNext u with
    | none => none
    | some r =>
      match getNextTimes k r.2 with
      | none => none
      | some rest => some (r.1 :: rest.1, rest.2)

/-- What `%+v` prints for a `*User` when the user objects are `heap`. -/
def formatUser (heap : List User) (user : UserPtr) : String :=
  match user with
  | none => "<nil>"
  | some a =>
    match heap.get? a with
    | none => "<nil>"
    | some u => "&\x7bname:" ++ u.name ++ " age:" ++ toString u.age ++ "\x7d"

/-- The loop `for iterator.hasNext()` of `main`, run for at most `fuel` rounds: the
lines printed when the loop ends, `none` on a panic or when the fuel runs out. -/
def mainLoop : Nat → List User → UserIterator → List String → Option (List String)
  | 0, _, _, _ => none
  | fuel + 1, heap, iterator, out =>
    if hasNext iterator then
      match getNext iterator with
      | none => none
      | some r => mainLoop fuel heap r.2 (out ++ ["User is " ++ formatUser heap r.1])
    else
      some out

/-- The function `main`: `user1` lives at address 0 and `user2` at address 1. -/
def main : Option (List String) :=
  let heap : List User := [{ name := "a", age := 30 }, { name := "b", age := 20 }]
  let userCollection : UserCollection := { users := [some 0, some 1] }
  let iterator := createIterator userCollection
  mainLoop 3 heap iterator []

end IteratorPattern

/-! ## Interpreter (`Interpret.go`) -/

namespace InterpreterPattern

/-- The largest value of Go's `int` on a 64-bit platform. -/
def maxInt : Int := 9223372036854775807

/-- The smallest value of Go's `int` on a 64-bit platform. -/
def minInt : Int := -9223372036854775808

/-- The value that Go's `int` arithmetic yields for the exact result `x`: the
representative of `x` modulo `2^64` between `minInt` and `maxInt`. -/
def wrapInt (x : Int) : Int :=
  (x + 9223372036854775808) % 18446744073709551616 - 9223372036854775808

/-- A non-nil value of the interface `Expression`: a `Number`, `Plus` or `Minus`
node with its fields. -/
inductive Expression where
  | Number (value : Int)
  | Plus (left right : Expression)
  | Minus (left right : Expression)
  deriving DecidableEq, Repr

/-- The three `Interpret` methods. -/
def Interpret : Expression → Int
  | .Number value => value
  | .Plus left right => wrapInt (Interpret left + Interpret right)
  | .Minus left right => wrapInt (Interpret left - Interpret right)

/-- The Go library predicate `unicode.IsSpace`, after its documentation: the
characters with the property White_Space. -/
def isSpace (c : Char) : Bool :=
  (9 ≤ c.toNat && c.toNat ≤ 13) || c.toNat = 32 || c.toNat = 0x85 || c.toNat = 0xA0 ||
  c.toNat = 0x1680 || (0x2000 ≤ c.toNat && c.toNat ≤ 0x200A) || c.toNat = 0x2028 ||
  c.toNat = 0x2029 || c.toNat = 0x202F || c.toNat = 0x205F || c.toNat = 0x3000

/-- The scan behind `Fields`: `cur` holds the characters of the field that is being
read. -/
def fieldsFrom : List Char → List Char → List String
  | [], cur => if cur.isEmpty then [] else [String.mk cur]
  | c :: cs, cur =>
    if isSpace c then
      if cur.isEmpty then fieldsFrom cs [] else String.mk cur :: fieldsFrom cs []
    else
      fieldsFrom cs (cur ++ [c])

/-- The Go library function `strings.Fields`, after its documentation: the maximal
runs of characters that are not white space, in order. -/
def Fields (s : String) : List String :=
  fieldsFrom s.data []

/-- The two errors of the Go package `strconv`. -/
inductive NumError where
  | ErrSyntax
  | ErrRange
  deriving DecidableEq, Repr

/-- The characters of a token after its optional sign. -/
def unsignedPart (token : String) : List Char :=
  if token.data.head? = some '-' ∨ token.data.head? = some '+' then token.data.tail
  else token.data

/-- The largest value of Go's `uint64`. -/
def maxUint64 : Nat := 18446744073709551615

/-- The digit loop of the Go library function `strconv.ParseUint` for base 10 and
64 bits, after its source: `n` is the value read so far.  A character that is not
a decimal digit gives 0 and a syntax error.  A digit at which the value would
pass `maxUint64` gives `maxUint64` and a range error, and the characters after it
are not looked at (1844674407370955162 is the `cutoff` of the source, the least
`n` for which `n * 10` overflows). -/
def parseUintLoop : List Char → Nat → Nat × Option NumError
  | [], n => (n, none)
  | c :: cs, n =>
    if c.isDigit then
      if n ≥ 1844674407370955162 then (maxUint64, some NumError.ErrRange)
      else if n * 10 + (c.toNat - 48) > maxUint64 then (maxUint64, some NumError.ErrRange)
      else parseUintLoop cs (n * 10 + (c.toNat - 48))
    else
      (0, some NumError.ErrSyntax)

/-- The Go library function `strconv.ParseUint(s, 10, 0)`, after its source: the
empty string is a syntax error, otherwise the digit loop decides. -/
def ParseUint (s : List Char) : Nat × Option NumError :=
  if s.isEmpty then (0, some NumError.ErrSyntax) else parseUintLoop s 0

/-- The Go library function `strconv.ParseInt(s, 10, 0)`, after its source: the
sign is picked off, the rest goes through `ParseUint`; a syntax error gives 0; a
range error, or a magnitude that does not fit `int`, gives the nearest `int` and
a range error. -/
def ParseInt (s : String) : Int × Option NumError :=
  if s.data.isEmpty then
    (0, some NumError.ErrSyntax)
  else
    let un := ParseUint (unsignedPart s)
    if un.2 = some NumError.ErrSyntax then (0, some NumError.ErrSyntax)
    else if s.data.head? = some '-' then
      if un.1 > 9223372036854775808 then (minInt, some NumError.ErrRange)
      else (-(un.1 : Int), none)
    else
      if un.1 ≥ 9223372036854775808 then (maxInt, some NumError.ErrRange)
      else ((un.1 : Int), none)

/-- The Go library function `strconv.Atoi`: by its documentation it is
`ParseInt(s, 10, 0)` converted to `int` (the fast path of its source for short
strings returns the same value and error). -/
def Atoi (s : String) : Int × Option NumError :=
  ParseInt s

/-- Reads `stack[len(stack)-1]` and cuts the stack to `stack[:len(stack)-1]`; `none`
is the run-time panic for an index out of range. -/
def pop (stack : List Expression) : Option (Expression × List Expression) :=
  match stack.getLast? with
  | none => none
  | some top => some (top, stack.dropLast)

/-- The body of the loop of `parse` for one token: the stack afterwards (the top is
the last element); `none` is a run-time panic. -/
def parseStep (stack : List Expression) (token : String) : Option (List Expression) :=
  if token = "+" then
    match pop stack with
    | none => none
    | some (right, stack1) =>
      match pop stack1 with
      | none => none
      | some (left, stack2) => some (stack2 ++ [Expression.Plus left right])
  else if token = "-" then
    match pop stack with
    | none => none
    | some (right, stack1) =>
      match pop stack1 with
      | none => none
      | some (left, stack2) => some (stack2 ++ [Expression.Minus left right])
  else
    let value := (Atoi token).1
    some (stack ++ [Expression.Number value])

/-- The loop of `parse` over the tokens. -/
def parseLoop : List String → List Expression → Option (List Expression)
  | [], stack => some stack
  | token :: tokens, stack =>
    match parseStep stack token with
    | none => none
    | some stack1 => parseLoop tokens stack1

/-- The function `parse`; `none` is a run-time panic (index out of range). -/
def parse (expression : String) : Option Expression :=
  match parseLoop (Fields expression) [] with
  | none => none
  | some stack => stack.head?

/-- The function `main`: the line it prints; `none` is a run-time panic. -/
def main : Option String :=
  let expression := "5 3 + 2 -"
  match parse expression with
  | none => none
  | some ast =>
    let result := Interpret ast
    some ("Result of \x27" ++ expression ++ "\x27 is " ++ toString result)

/-- The depth of the stack after the tokens, starting at depth `d`, when every
operator finds two operands; `none` when an operator finds fewer. -/
def depthAfter : List String → Nat → Option Nat
  | [], d => some d
  | token :: tokens, d =>
    if token = "+" ∨ token = "-" then
      if 2 ≤ d then depthAfter tokens (d - 1) else none
    else
      depthAfter tokens (d + 1)

/-- Every operator among the tokens finds at least two operands on the stack, and
at least one value remains at the end. -/
def operandsSuffice (tokens : List String) : Bool :=
  match depthAfter tokens 0 with
  | none => false
  | some d => decide (1 ≤ d)

/-- The token is a decimal integer literal: an optional sign followed by one or
more decimal digits. -/
def isDecimalLiteral (token : String) : Bool :=
  !(unsignedPart token).isEmpty && (unsignedPart token).all Char.isDigit

end InterpreterPattern

/-! ## Interpreter: integer literals (`Interpret.go`) -/

namespace InterpreterPattern

/-- The number that a run of decimal digits denotes. -/
def decimalValue (digits : List Char) : Nat :=
  digits.foldl (fun n c => n * 10 + (c.toNat - 48)) 0

/-- The integer that a decimal integer literal denotes: the number of its digits,
negated after a minus sign. -/
def literalValue (token : String) : Int :=
  if token.data.head? = some '-' then -((decimalValue (unsignedPart token) : Nat) : Int)
  else ((decimalValue (unsignedPart token) : Nat) : Int)

/-- The token is an integer literal of Go's `int`: a decimal integer literal whose
value lies between `minInt` and `maxInt`. -/
def isIntLiteral (token : String) : Bool :=
  isDecimalLiteral token && decide (minInt ≤ literalValue token) &&
    decide (literalValue token ≤ maxInt)

/-- The decimal digits with which a run of characters starts. -/
def leadingDigits (cs : List Char) : List Char :=
  cs.takeWhile Char.isDigit

/-- The value that `Atoi` returns together with its error for a token that is not
a decimal integer literal: 0, unless the digits between the optional sign and the
first other character already denote a number above `maxUint64`; then it is the
largest `int`, or the smallest `int` after a minus sign. -/
def rejectedValue (token : String) : Int :=
  if decimalValue (leadingDigits (unsignedPart token)) ≤ maxUint64 then 0
  else if token.data.head? = some '-' then minInt
  else maxInt

/-- The standard stack evaluation of a postfix expression, in exact integer
arithmetic (the top of the stack is the head of the list): a decimal integer
literal pushes the integer it denotes; an operator pops the right and then the
left operand and pushes their sum or difference; `none` when an operator finds
fewer than two operands or a token is neither an operator nor a literal. -/
def evalStandard : List String → List Int → Option (List Int)
  | [], stack => some stack
  | token :: tokens, stack =>
    if token = "+" then
      match stack with
      | b :: a :: rest => evalStandard tokens ((a + b) :: rest)
      | _ => none
    else if token = "-" then
      match stack with
      | b :: a :: rest => evalStandard tokens ((a - b) :: rest)
      | _ => none
    else if isDecimalLiteral token then
      evalStandard tokens (literalValue token :: stack)
    else
      none

end InterpreterPattern

/-! ## Builder: theorems -/

namespace BuilderPattern

theorem run_parts (c : ProduceCall) (b : ConcreteBuilder1) :
    (c.run b).product.parts = b.product.parts ++ [c.partName] := by
  cases c <;> rfl

theorem runCalls_parts (cs : List ProduceCall) (b : ConcreteBuilder1) :
    (runCalls cs b).product.parts = b.product.parts ++ cs.map ProduceCall.partName := by
  induction cs generalizing b with
  | nil => simp [runCalls]
  | cons c cs ih =>
    have h := ih (c.run b)
    simp only [runCalls, List.foldl_cons] at h ⊢
    rw [h, run_parts]
    simp

/-- C1: for every builder, fresh or in any state `b` at the moment of a previous
`GetProduct`, and every sequence `cs` of `ProducePartA/B/C` calls made after that,
`GetProduct` returns exactly the names of `cs` in call order (nothing of what `b`
had accumulated before); the driver obtains `[PartA1]`, `[PartA1, PartB1, PartC1]`
and `[PartA1, PartC1]` and prints them. -/
theorem C1_getProduct_returns_parts_since_last :
    (∀ cs : List ProduceCall,
      (GetProduct (runCalls cs newConcreteBuilder1)).1.parts
        = cs.map ProduceCall.partName) ∧
    (∀ (b : ConcreteBuilder1) (cs : List ProduceCall),
      (GetProduct (runCalls cs (GetProduct b).2)).1.parts
        = cs.map ProduceCall.partName) ∧
    ClientCode.1 =
      [{ parts := ["PartA1"] }, { parts := ["PartA1", "PartB1", "PartC1"] },
       { parts := ["PartA1", "PartC1"] }] ∧
    ClientCode.2.1 =
      ["Standard basic product:", "Product parts: PartA1", "",
       "Standard full featured product:", "Product parts: PartA1, PartB1, PartC1", "",
       "Custom product:", "Product parts: PartA1, PartC1"] := by
  refine ⟨?_, ?_, ?_, ?_⟩
  · intro cs
    simp [GetProduct, runCalls_parts, newConcreteBuilder1]
  · intro b cs
    simp [GetProduct, runCalls_parts]
  · rfl
  · decide

/-- C2: after every `GetProduct` the builder equals a freshly constructed
`ConcreteBuilder1` (no accumulated parts), and a second `GetProduct` straight after
returns a product without parts and leaves the builder in that same state. -/
theorem C2_getProduct_resets_builder (b : ConcreteBuilder1) :
    (GetProduct b).2 = newConcreteBuilder1 ∧
    (GetProduct b).2.product.parts = [] ∧
    (GetProduct (GetProduct b).2).1.parts = [] ∧
    (GetProduct (GetProduct b).2).2 = (GetProduct b).2 := by
  refine ⟨rfl, rfl, rfl, rfl⟩

end BuilderPattern

/-! ## Flyweight: theorems -/

namespace FlyweightPattern

theorem mapGet_mapSet_self (m : List (String × Dress)) (k : String) (v : Dress) :
    mapGet (mapSet m k v) k = v := by
  induction m with
  | nil => simp [mapSet, mapGet]
  | cons e rest ih =>
    obtain ⟨k', v'⟩ := e
    by_cases h : k' = k
    · simp [mapSet, mapGet, h]
    · simp [mapSet, mapGet, h, ih]

theorem mapGet_mapSet_other (m : List (String × Dress)) (k j : String) (v : Dress)
    (hne : j ≠ k) : mapGet (mapSet m k v) j = mapGet m j := by
  have hkj : ¬ k = j := fun e => hne e.symm
  induction m with
  | nil => simp [mapSet, mapGet, hkj]
  | cons e rest ih =>
    obtain ⟨k', v'⟩ := e
    by_cases h : k' = k
    · subst h
      simp [mapSet, mapGet, hkj]
    · by_cases h3 : k' = j
      · subst h3
        simp [mapSet, mapGet, h]
      · simp [mapSet, mapGet, h, h3, ih]

/-- The behaviour of `getDressByType` on a key that the cache holds. -/
theorem getDressByType_hit (w : World) (key : String)
    (h : mapGet w.dressFactorySingleInstance.dressMap key ≠ none) :
    getDressByType w key =
      ({ dress := mapGet w.dressFactorySingleInstance.dressMap key, err := none }, w) := by
  unfold getDressByType
  simp only [h, ne_eq, not_false_eq_true, if_true]

/-- The behaviour of `getDressByType` on `"tDress"` when the cache does not hold it. -/
theorem getDressByType_miss_t (w : World)
    (h : mapGet w.dressFactorySingleInstance.dressMap TerroristDressType = none) :
    getDressByType w TerroristDressType =
      ({ dress := some w.heap.length, err := none },
       { heap := w.heap ++ [DressObject.TerroristDress "red"],
         dressFactorySingleInstance :=
           { dressMap := mapSet w.dressFactorySingleInstance.dressMap TerroristDressType
               (some w.heap.length) } }) := by
  unfold getDressByType
  simp [h, mapGet_mapSet_self, newTerroristDress]

/-- The behaviour of `getDressByType` on `"ctDress"` when the cache does not hold it. -/
theorem getDressByType_miss_ct (w : World)
    (h : mapGet w.dressFactorySingleInstance.dressMap CounterTerrroristDressType = none) :
    getDressByType w CounterTerrroristDressType =
      ({ dress := some w.heap.length, err := none },
       { heap := w.heap ++ [DressObject.CounterTerroristDress "green"],
         dressFactorySingleInstance :=
           { dressMap := mapSet w.dressFactorySingleInstance.dressMap
               CounterTerrroristDressType (some w.heap.length) } }) := by
  have hne : ¬ CounterTerrroristDressType = TerroristDressType := by decide
  unfold getDressByType
  simp [h, mapGet_mapSet_self, newCounterTerroristDress, hne]

/-- The behaviour of `getDressByType` on any other key that the cache does not hold. -/
theorem getDressByType_unknown (w : World) (key : String)
    (h : mapGet w.dressFactorySingleInstance.dressMap key = none)
    (h1 : key ≠ TerroristDressType) (h2 : key ≠ CounterTerrroristDressType) :
    getDressByType w key =
      ({ dress := none, err := some "Wrong dress type passed" }, w) := by
  unfold getDressByType
  simp [h, h1, h2]

theorem keysKnown_step (w : World) (key : String) (h : KeysKnown w) :
    KeysKnown (getDressByType w key).2 := by
  by_cases h1 : mapGet w.dressFactorySingleInstance.dressMap key = none
  · by_cases h2 : key = TerroristDressType
    · subst h2
      rw [getDressByType_miss_t w h1]
      intro k hk
      by_cases hkk : k = TerroristDressType
      · exact Or.inl hkk
      · simp only [mapGet_mapSet_other _ _ _ _ hkk] at hk
        exact h k hk
    · by_cases h3 : key = CounterTerrroristDressType
      · subst h3
        rw [getDressByType_miss_ct w h1]
        intro k hk
        by_cases hkk : k = CounterTerrroristDressType
        · exact Or.inr hkk
        · simp only [mapGet_mapSet_other _ _ _ _ hkk] at hk
          exact h k hk
      · rw [getDressByType_unknown w key h1 h2 h3]
        exact h
  · rw [getDressByType_hit w key h1]
    exact h

theorem keysKnown_foldl (keys : List String) (w : World) (h : KeysKnown w) :
    KeysKnown (keys.foldl (fun w k => (getDressByType w k).2) w) := by
  induction keys generalizing w with
  | nil => exact h
  | cons k ks ih => exact ih _ (keysKnown_step w k h)

theorem keysKnown_reach (keys : List String) : KeysKnown (reach keys) := by
  apply keysKnown_foldl
  intro k hk
  simp [World.init, mapGet] at hk

/-- Two requests in a row for a known key, from any state: both succeed with the
same non-nil dress, which is the cached one, and the second changes nothing. -/
theorem sameKey_twice (w : World) (key : String)
    (hk : key = TerroristDressType ∨ key = CounterTerrroristDressType) :
    (getDressByType w key).1.err = none ∧
    (getDressByType (getDressByType w key).2 key).1.err = none ∧
    (getDressByType w key).1.dress ≠ none ∧
    (getDressByType (getDressByType w key).2 key).1.dress = (getDressByType w key).1.dress ∧
    (getDressByType w key).1.dress
      = mapGet (getDressByType w key).2.dressFactorySingleInstance.dressMap key ∧
    (getDressByType (getDressByType w key).2 key).2 = (getDressByType w key).2 := by
  by_cases h : mapGet w.dressFactorySingleInstance.dressMap key = none
  · have key_fact : ∃ w1, getDressByType w key = ({ dress := some w.heap.length, err := none }, w1)
        ∧ mapGet w1.dressFactorySingleInstance.dressMap key = some w.heap.length := by
      rcases hk with hk | hk
      · subst hk
        exact ⟨_, getDressByType_miss_t w h, mapGet_mapSet_self _ _ _⟩
      · subst hk
        exact ⟨_, getDressByType_miss_ct w h, mapGet_mapSet_self _ _ _⟩
    obtain ⟨w1, e1, e2⟩ := key_fact
    have hne : mapGet w1.dressFactorySingleInstance.dressMap key ≠ none := by
      rw [e2]; simp
    rw [e1]
    simp only [getDressByType_hit w1 key hne, e2]
    simp
  · have e1 := getDressByType_hit w key h
    rw [e1]
    simp only [e1]
    exact ⟨trivial, trivial, h, trivial, trivial, trivial⟩

/-- C3: in every factory state reached from the empty cache by `getDressByType`
calls, two requests in a row for `"tDress"` (or for `"ctDress"`) both return a nil
error and the same non-nil dress pointer; it is the pointer that the cache holds
after the first call, and the second call leaves the whole state (allocated dress
objects and cache) as the first call left it. -/
theorem C3_same_key_same_instance (keys : List String) (key : String)
    (hk : key = TerroristDressType ∨ key = CounterTerrroristDressType) :
    (getDressByType (reach keys) key).1.err = none ∧
    (getDressByType (getDressByType (reach keys) key).2 key).1.err = none ∧
    (getDressByType (reach keys) key).1.dress ≠ none ∧
    (getDressByType (getDressByType (reach keys) key).2 key).1.dress
      = (getDressByType (reach keys) key).1.dress ∧
    (getDressByType (reach keys) key).1.dress
      = mapGet (getDressByType (reach keys) key).2.dressFactorySingleInstance.dressMap key ∧
    (getDressByType (getDressByType (reach keys) key).2 key).2.heap
      = (getDressByType (reach keys) key).2.heap ∧
    (getDressByType (getDressByType (reach keys) key).2 key).2.dressFactorySingleInstance
      = (getDressByType (reach keys) key).2.dressFactorySingleInstance := by
  obtain ⟨h1, h2, h3, h4, h5, h6⟩ := sameKey_twice (reach keys) key hk
  exact ⟨h1, h2, h3, h4, h5, by rw [h6], by rw [h6]⟩

/-- C3 at the driver's situation: after two earlier `"tDress"` requests, two more
requests for `"tDress"` return the dress at address 0 and allocate nothing. -/
theorem C3_same_key_same_instance_witness :
    (TerroristDressType = TerroristDressType ∨
      TerroristDressType = CounterTerrroristDressType) ∧
    (getDressByType (reach ["tDress", "tDress"]) TerroristDressType).1
      = { dress := some 0, err := none } ∧
    (getDressByType (getDressByType (reach ["tDress", "tDress"]) TerroristDressType).2
        TerroristDressType).1.dress
      = (getDressByType (reach ["tDress", "tDress"]) TerroristDressType).1.dress ∧
    (getDressByType (getDressByType (reach ["tDress", "tDress"]) TerroristDressType).2
        TerroristDressType).2.heap = [DressObject.TerroristDress "red"] :=
  ⟨Or.inl rfl, by decide,
   (C3_same_key_same_instance ["tDress", "tDress"] TerroristDressType (Or.inl rfl)).2.2.2.1,
   by decide⟩

/-- C4: in every factory state reached from the empty cache by `getDressByType`
calls, `getDressByType` returns an error exactly when the key is neither `"tDress"`
nor `"ctDress"`; and either there is no error, or the dress is nil, the error is
`"Wrong dress type passed"` and the state (cache and allocated objects) is
unchanged. -/
theorem C4_fails_iff_unknown_key (keys : List String) (key : String) :
    ((getDressByType (reach keys) key).1.err ≠ none ↔
      (key ≠ TerroristDressType ∧ key ≠ CounterTerrroristDressType)) ∧
    ((getDressByType (reach keys) key).1.err = none ∨
      ((getDressByType (reach keys) key).1
          = { dress := none, err := some "Wrong dress type passed" } ∧
        (getDressByType (reach keys) key).2.heap = (reach keys).heap ∧
        (getDressByType (reach keys) key).2.dressFactorySingleInstance
          = (reach keys).dressFactorySingleInstance)) := by
  have hinv := keysKnown_reach keys
  by_cases h1 : key = TerroristDressType ∨ key = CounterTerrroristDressType
  · have hs := (sameKey_twice (reach keys) key h1).1
    constructor
    · constructor
      · intro he; exact absurd hs he
      · rintro ⟨a, b⟩
        rcases h1 with h1 | h1
        · exact absurd h1 a
        · exact absurd h1 b
    · exact Or.inl hs
  · have ha : key ≠ TerroristDressType := fun e => h1 (Or.inl e)
    have hb : key ≠ CounterTerrroristDressType := fun e => h1 (Or.inr e)
    have hmiss : mapGet (reach keys).dressFactorySingleInstance.dressMap key = none := by
      by_contra hc
      exact h1 (hinv key hc)
    rw [getDressByType_unknown (reach keys) key hmiss ha hb]
    simp [ha, hb]

end FlyweightPattern

/-! ## Mediator: theorems -/

namespace MediatorPattern

theorem arrive_granted (t : Train) (w : World)
    (h : (w.managers t.mediator).isPlatformFree = true) :
    (arrive t w).managers t.mediator
      = { isPlatformFree := false, trainQueue := (w.managers t.mediator).trainQueue } ∧
    (∀ a, a ≠ t.mediator → (arrive t w).managers a = w.managers a) ∧
    (arrive t w).out = w.out ++ [t.kind.label ++ ": Arrived"] ∧
    (arrive t w).onPlatform = w.onPlatform ++ [t] := by
  refine ⟨?_, ?_, ?_, ?_⟩
  · simp [arrive, canArrive, h, World.setManager, World.println]
  · intro a ha
    simp [arrive, canArrive, h, World.setManager, World.println, ha]
  · simp [arrive, canArrive, h, World.setManager, World.println]
  · simp [arrive, canArrive, h, World.setManager, World.println]

theorem arrive_blocked (t : Train) (w : World)
    (h : (w.managers t.mediator).isPlatformFree = false) :
    (arrive t w).managers t.mediator
      = { isPlatformFree := false,
          trainQueue := (w.managers t.mediator).trainQueue ++ [t] } ∧
    (∀ a, a ≠ t.mediator → (arrive t w).managers a = w.managers a) ∧
    (arrive t w).out = w.out ++ [t.kind.label ++ ": Arrival blocked, waiting"] ∧
    (arrive t w).onPlatform = w.onPlatform := by
  refine ⟨?_, ?_, ?_, ?_⟩
  · simp [arrive, canArrive, h, World.setManager, World.println]
  · intro a ha
    simp [arrive, canArrive, h, World.setManager, World.println, ha]
  · simp [arrive, canArrive, h, World.setManager, World.println]
  · simp [arrive, canArrive, h, World.setManager, World.println]

theorem permitArrival_eq (t : Train) (w : World) :
    permitArrival t w = arrive t (w.println t.kind.permitLine) := by
  unfold permitArrival
  cases t.kind <;> rfl

theorem notify_eq (m : Nat) (w : World) :
    notifyAboutDeparture m w =
      match (w.managers m).trainQueue with
      | [] => w.setManager m { isPlatformFree := true, trainQueue := [] }
      | firstTrainInQueue :: rest =>
        permitArrival firstTrainInQueue
          (w.setManager m { isPlatformFree := true, trainQueue := rest }) := by
  unfold notifyAboutDeparture
  generalize w.managers m = s
  cases s with
  | mk free queue => cases free <;> cases queue <;> rfl

theorem notify_empty (m : Nat) (w : World) (hq : (w.managers m).trainQueue = []) :
    (notifyAboutDeparture m w).managers m = { isPlatformFree := true, trainQueue := [] } ∧
    (∀ a, a ≠ m → (notifyAboutDeparture m w).managers a = w.managers a) ∧
    (notifyAboutDeparture m w).out = w.out ∧
    (notifyAboutDeparture m w).onPlatform = w.onPlatform := by
  rw [notify_eq, hq]
  refine ⟨?_, ?_, rfl, rfl⟩
  · simp [World.setManager]
  · intro a ha
    simp [World.setManager, ha]

theorem notify_cons (m : Nat) (w : World) (t1 : Train) (rest : List Train)
    (hq : (w.managers m).trainQueue = t1 :: rest) (hreg : t1.mediator = m) :
    (notifyAboutDeparture m w).managers m
      = { isPlatformFree := false, trainQueue := rest } ∧
    (∀ a, a ≠ m → (notifyAboutDeparture m w).managers a = w.managers a) ∧
    (notifyAboutDeparture m w).out
      = w.out ++ [t1.kind.permitLine, t1.kind.label ++ ": Arrived"] ∧
    (notifyAboutDeparture m w).onPlatform = w.onPlatform ++ [t1] := by
  rw [notify_eq, hq]
  simp only [permitArrival_eq]
  subst hreg
  have hfree : (((w.setManager t1.mediator
      { isPlatformFree := true, trainQueue := rest }).println
        t1.kind.permitLine).managers t1.mediator).isPlatformFree = true := by
    simp [World.setManager, World.println]
  obtain ⟨h1, h2, h3, h4⟩ := arrive_granted t1 _ hfree
  refine ⟨?_, ?_, ?_, ?_⟩
  · rw [h1]; simp [World.setManager, World.println]
  · intro a ha
    rw [h2 a ha]; simp [World.setManager, World.println, ha]
  · rw [h3]; simp [World.setManager, World.println]
  · rw [h4]; simp [World.setManager, World.println]

theorem depart_empty (t : Train) (w : World)
    (hq : (w.managers t.mediator).trainQueue = []) :
    (depart t w).managers t.mediator = { isPlatformFree := true, trainQueue := [] } ∧
    (depart t w).out = w.out ++ [t.kind.label ++ ": Leaving"] ∧
    (depart t w).onPlatform = w.onPlatform.filter (fun x => x ≠ t) := by
  unfold depart
  obtain ⟨h1, _, h3, h4⟩ := notify_empty t.mediator
    { w.println (t.kind.label ++ ": Leaving") with
      onPlatform := w.onPlatform.filter (fun x => x ≠ t) }
    (by simpa [World.println] using hq)
  refine ⟨h1, ?_, ?_⟩
  · rw [h3]; rfl
  · rw [h4]

theorem depart_cons (t : Train) (w : World) (t1 : Train) (rest : List Train)
    (hq : (w.managers t.mediator).trainQueue = t1 :: rest)
    (hreg : t1.mediator = t.mediator) :
    (depart t w).managers t.mediator = { isPlatformFree := false, trainQueue := rest } ∧
    (depart t w).out
      = w.out ++ [t.kind.label ++ ": Leaving", t1.kind.permitLine,
          t1.kind.label ++ ": Arrived"] ∧
    (depart t w).onPlatform = w.onPlatform.filter (fun x => x ≠ t) ++ [t1] := by
  unfold depart
  obtain ⟨h1, _, h3, h4⟩ := notify_cons t.mediator
    { w.println (t.kind.label ++ ": Leaving") with
      onPlatform := w.onPlatform.filter (fun x => x ≠ t) } t1 rest
    (by simpa [World.println] using hq) hreg
  refine ⟨h1, ?_, ?_⟩
  · rw [h3]; simp [World.println]
  · rw [h4]

theorem platformInv_init (m : Nat) : PlatformInv m World.init := by
  simp [PlatformInv, World.init, newStationManger]

theorem platformInv_arrive (m : Nat) (t : Train) (w : World) (ht : t.mediator = m)
    (hinv : PlatformInv m w) : PlatformInv m (arrive t w) := by
  subst ht
  obtain ⟨hfree, hlen, hq⟩ := hinv
  cases hf : (w.managers t.mediator).isPlatformFree with
  | true =>
    obtain ⟨h1, _, _, h4⟩ := arrive_granted t w hf
    have hnil : w.onPlatform = [] := hfree.mp hf
    refine ⟨?_, ?_, ?_⟩
    · rw [h1, h4]; simp
    · rw [h4, hnil]; simp
    · rw [h1]; exact hq
  | false =>
    obtain ⟨h1, _, _, h4⟩ := arrive_blocked t w hf
    refine ⟨?_, ?_, ?_⟩
    · rw [h1, h4]
      constructor
      · intro h; simp at h
      · intro h
        have := hfree.mpr h
        rw [hf] at this
        exact absurd this (by simp)
    · rw [h4]; exact hlen
    · rw [h1]
      intro q hqm
      simp only [List.mem_append, List.mem_singleton] at hqm
      rcases hqm with hqm | hqm
      · exact hq q hqm
      · rw [hqm]

theorem filter_ne_of_mem (t : Train) (l : List Train) (hlen : l.length ≤ 1) (hmem : t ∈ l) :
    l.filter (fun x => x ≠ t) = [] := by
  match l, hlen, hmem with
  | [x], _, hmem =>
    have hx : t = x := by simpa using hmem
    subst hx
    simp

theorem platformInv_depart (m : Nat) (t : Train) (w : World) (ht : t.mediator = m)
    (hon : t ∈ w.onPlatform) (hinv : PlatformInv m w) : PlatformInv m (depart t w) := by
  subst ht
  obtain ⟨_, hlen, hq⟩ := hinv
  have hfil := filter_ne_of_mem t w.onPlatform hlen hon
  cases hqueue : (w.managers t.mediator).trainQueue with
  | nil =>
    obtain ⟨h1, _, h3⟩ := depart_empty t w hqueue
    refine ⟨?_, ?_, ?_⟩
    · rw [h1, h3, hfil]; simp
    · rw [h3, hfil]; simp
    · rw [h1]; intro q hqm; simp at hqm
  | cons t1 rest =>
    have hreg : t1.mediator = t.mediator := hq t1 (by rw [hqueue]; simp)
    obtain ⟨h1, _, h3⟩ := depart_cons t w t1 rest hqueue hreg
    refine ⟨?_, ?_, ?_⟩
    · rw [h1, h3, hfil]; simp
    · rw [h3, hfil]; simp
    · rw [h1]
      intro q hqm
      exact hq q (by rw [hqueue]; exact List.mem_cons_of_mem _ hqm)

theorem platformInv_runCalls (m : Nat) (cs : List Call) (w : World)
    (hreg : ∀ c ∈ cs, c.train.mediator = m) (hproto : departsFromPlatform cs w = true)
    (hinv : PlatformInv m w) : PlatformInv m (runCalls cs w) := by
  induction cs generalizing w with
  | nil => exact hinv
  | cons c cs ih =>
    have hc : c.train.mediator = m := hreg c (by simp)
    have hrest : ∀ d ∈ cs, d.train.mediator = m :=
      fun d hd => hreg d (List.mem_cons_of_mem _ hd)
    simp only [departsFromPlatform, Bool.and_eq_true] at hproto
    obtain ⟨hhead, htail⟩ := hproto
    have hstep : PlatformInv m (c.run w) := by
      cases c with
      | arrive t => exact platformInv_arrive m t w hc hinv
      | depart t => exact platformInv_depart m t w hc (of_decide_eq_true hhead) hinv
    exact ih (c.run w) hrest htail hstep

theorem departsFromPlatform_take (cs : List Call) (w : World) (n : Nat)
    (h : departsFromPlatform cs w = true) : departsFromPlatform (cs.take n) w = true := by
  induction cs generalizing w n with
  | nil => simpa using h
  | cons c cs ih =>
    cases n with
    | zero => simp [departsFromPlatform]
    | succ n =>
      simp only [departsFromPlatform, Bool.and_eq_true] at h
      simp only [List.take_succ_cons, departsFromPlatform, Bool.and_eq_true]
      exact ⟨h.1, ih (c.run w) n h.2⟩

/-- C5: from the start state, with trains `A` and `B` registered to the manager at
address `m`: `A.arrive()` is granted (platform occupied, `A` on the platform);
`B.arrive()` is then blocked and `B` is queued; `A.depart()` permits `B`, which
arrives, so that at the end the platform is occupied, by `B`, and the queue is
empty.  The driver prints exactly the five expected lines. -/
theorem C5_second_arrival_waits_for_departure (A B : Train) (m : Nat)
    (hA : A.mediator = m) (hB : B.mediator = m) :
    (arrive A World.init).managers m = { isPlatformFree := false, trainQueue := [] } ∧
    (arrive A World.init).out = [A.kind.label ++ ": Arrived"] ∧
    (arrive A World.init).onPlatform = [A] ∧
    (arrive B (arrive A World.init)).managers m
      = { isPlatformFree := false, trainQueue := [B] } ∧
    (arrive B (arrive A World.init)).out
      = [A.kind.label ++ ": Arrived", B.kind.label ++ ": Arrival blocked, waiting"] ∧
    (arrive B (arrive A World.init)).onPlatform = [A] ∧
    (depart A (arrive B (arrive A World.init))).managers m
      = { isPlatformFree := false, trainQueue := [] } ∧
    (depart A (arrive B (arrive A World.init))).out
      = [A.kind.label ++ ": Arrived", B.kind.label ++ ": Arrival blocked, waiting",
         A.kind.label ++ ": Leaving", B.kind.permitLine, B.kind.label ++ ": Arrived"] ∧
    (depart A (arrive B (arrive A World.init))).onPlatform = [B] ∧
    main.out = ["PassengerTrain: Arrived", "FreightTrain: Arrival blocked, waiting",
      "PassengerTrain: Leaving", "FreightTrain: Arrival permitted", "FreightTrain: Arrived"] ∧
    main.managers 0 = { isPlatformFree := false, trainQueue := [] } := by
  subst hA
  have h0 : (World.init.managers A.mediator).isPlatformFree = true := rfl
  obtain ⟨a1, _, a3, a4⟩ := arrive_granted A World.init h0
  have a1q : (arrive A World.init).managers A.mediator
      = { isPlatformFree := false, trainQueue := [] } := by rw [a1]; rfl
  have h1 : ((arrive A World.init).managers B.mediator).isPlatformFree = false := by
    rw [hB, a1q]
  obtain ⟨b1, _, b3, b4⟩ := arrive_blocked B (arrive A World.init) h1
  rw [hB, a1q] at b1
  have hq : ((arrive B (arrive A World.init)).managers A.mediator).trainQueue
      = B :: [] := by rw [b1]; rfl
  obtain ⟨c1, c3, c4⟩ := depart_cons A (arrive B (arrive A World.init)) B [] hq hB
  refine ⟨a1q, ?_, ?_, b1, ?_, ?_, c1, ?_, ?_, by decide, by decide⟩
  · rw [a3]; rfl
  · rw [a4]; rfl
  · rw [b3, a3]; rfl
  · rw [b4, a4]; rfl
  · rw [c3, b3, a3]; rfl
  · rw [c4, b4, a4]; simp [World.init]

/-- C5 on the driver's two trains: the passenger train at address 0 and the freight
train at address 1, both registered to the manager at address 0. -/
theorem C5_second_arrival_waits_for_departure_witness :
    (Train.mk .PassengerTrain 0 0).mediator = 0 ∧
    (Train.mk .FreightTrain 1 0).mediator = 0 ∧
    (depart (Train.mk .PassengerTrain 0 0)
        (arrive (Train.mk .FreightTrain 1 0)
          (arrive (Train.mk .PassengerTrain 0 0) World.init))).managers 0
      = { isPlatformFree := false, trainQueue := [] } ∧
    (depart (Train.mk .PassengerTrain 0 0)
        (arrive (Train.mk .FreightTrain 1 0)
          (arrive (Train.mk .PassengerTrain 0 0) World.init))).onPlatform
      = [Train.mk .FreightTrain 1 0] :=
  ⟨rfl, rfl,
   (C5_second_arrival_waits_for_departure (Train.mk .PassengerTrain 0 0)
      (Train.mk .FreightTrain 1 0) 0 rfl rfl).2.2.2.2.2.2.1,
   (C5_second_arrival_waits_for_departure (Train.mk .PassengerTrain 0 0)
      (Train.mk .FreightTrain 1 0) 0 rfl rfl).2.2.2.2.2.2.2.2.1⟩

/-- C6 as stated fails: train `A` arrives and is granted the platform, train `B`
(registered to the same manager) calls `depart` without being on the platform,
which frees the platform flag, and `B` then arrives and is granted too: `A` and `B`
are on the platform together. -/
theorem C6_any_sequence_counterexample :
    (∀ c ∈ [Call.arrive (Train.mk .PassengerTrain 0 0),
            Call.depart (Train.mk .FreightTrain 1 0),
            Call.arrive (Train.mk .FreightTrain 1 0)], c.train.mediator = 0) ∧
    (runCalls [Call.arrive (Train.mk .PassengerTrain 0 0),
               Call.depart (Train.mk .FreightTrain 1 0),
               Call.arrive (Train.mk .FreightTrain 1 0)] World.init).onPlatform
      = [Train.mk .PassengerTrain 0 0, Train.mk .FreightTrain 1 0] ∧
    ¬ ((runCalls [Call.arrive (Train.mk .PassengerTrain 0 0),
                  Call.depart (Train.mk .FreightTrain 1 0),
                  Call.arrive (Train.mk .FreightTrain 1 0)] World.init).onPlatform.length
        ≤ 1) := by
  refine ⟨by decide, by decide, by decide⟩

/-- C6 (amended): for every finite sequence of `arrive` and `depart` calls by trains
that share the manager at address `m`, made from the start state, in which
`depart` is only called by a train that is on the platform at that moment, after
every number `n` of calls at most one train is on the platform. -/
theorem C6_mutual_exclusion_under_protocol (m : Nat) (cs : List Call) (n : Nat)
    (hreg : ∀ c ∈ cs, c.train.mediator = m)
    (hproto : departsFromPlatform cs World.init = true) :
    (runCalls (cs.take n) World.init).onPlatform.length ≤ 1 := by
  have hreg2 : ∀ c ∈ cs.take n, c.train.mediator = m :=
    fun c hc => hreg c (List.mem_of_mem_take hc)
  exact (platformInv_runCalls m (cs.take n) World.init hreg2
    (departsFromPlatform_take cs World.init n hproto) (platformInv_init m)).2.1

/-- C6 (amended) on the calls `A.arrive, B.arrive, A.depart, B.depart`, looked at
after the third call. -/
theorem C6_mutual_exclusion_under_protocol_witness :
    (∀ c ∈ [Call.arrive (Train.mk .PassengerTrain 0 0),
            Call.arrive (Train.mk .FreightTrain 1 0),
            Call.depart (Train.mk .PassengerTrain 0 0),
            Call.depart (Train.mk .FreightTrain 1 0)], c.train.mediator = 0) ∧
    departsFromPlatform [Call.arrive (Train.mk .PassengerTrain 0 0),
            Call.arrive (Train.mk .FreightTrain 1 0),
            Call.depart (Train.mk .PassengerTrain 0 0),
            Call.depart (Train.mk .FreightTrain 1 0)] World.init = true ∧
    (runCalls ([Call.arrive (Train.mk .PassengerTrain 0 0),
            Call.arrive (Train.mk .FreightTrain 1 0),
            Call.depart (Train.mk .PassengerTrain 0 0),
            Call.depart (Train.mk .FreightTrain 1 0)].take 3) World.init).onPlatform.length
      ≤ 1 :=
  ⟨by decide, by decide,
   C6_mutual_exclusion_under_protocol 0 _ 3 (by decide) (by decide)⟩

/-- C7: at a manager (address `m`) whose platform is occupied and whose queued
trains are all registered to it, `canArrive` returns false and appends the train
at the end of the queue; `notifyAboutDeparture` with a queue `t1 :: rest` permits
`t1` and nobody else (the output gains the permit line and the arrival line of
`t1`, and `t1` alone comes onto the platform), leaving the queue `rest` and the
platform occupied; with an empty queue it prints nothing and leaves the platform
free. -/
theorem C7_fifo_release (w : World) (m : Nat) (t : Train)
    (hocc : (w.managers m).isPlatformFree = false)
    (hreg : ∀ q ∈ (w.managers m).trainQueue, q.mediator = m) :
    canArrive (w.managers m) t
      = (false, { isPlatformFree := false,
                  trainQueue := (w.managers m).trainQueue ++ [t] }) ∧
    (match (w.managers m).trainQueue with
     | [] =>
       (notifyAboutDeparture m w).managers m
         = { isPlatformFree := true, trainQueue := [] } ∧
       (notifyAboutDeparture m w).out = w.out ∧
       (notifyAboutDeparture m w).onPlatform = w.onPlatform
     | t1 :: rest =>
       (notifyAboutDeparture m w).managers m
         = { isPlatformFree := false, trainQueue := rest } ∧
       (notifyAboutDeparture m w).out
         = w.out ++ [t1.kind.permitLine, t1.kind.label ++ ": Arrived"] ∧
       (notifyAboutDeparture m w).onPlatform = w.onPlatform ++ [t1]) := by
  constructor
  · simp [canArrive, hocc]
  · cases hq : (w.managers m).trainQueue with
    | nil =>
      obtain ⟨h1, _, h3, h4⟩ := notify_empty m w hq
      exact ⟨h1, h3, h4⟩
    | cons t1 rest =>
      have ht1 : t1.mediator = m := hreg t1 (by rw [hq]; simp)
      obtain ⟨h1, _, h3, h4⟩ := notify_cons m w t1 rest hq ht1
      exact ⟨h1, h3, h4⟩

/-- C7 on the state after `A.arrive, B.arrive, C.arrive` (queue `[B, C]`): a fourth
train is appended behind `C`, and a departure permits `B` and leaves `[C]`. -/
theorem C7_fifo_release_witness :
    ((arrive (Train.mk .PassengerTrain 2 0) (arrive (Train.mk .FreightTrain 1 0)
        (arrive (Train.mk .PassengerTrain 0 0) World.init))).managers 0).isPlatformFree
      = false ∧
    (∀ q ∈ ((arrive (Train.mk .PassengerTrain 2 0) (arrive (Train.mk .FreightTrain 1 0)
        (arrive (Train.mk .PassengerTrain 0 0) World.init))).managers 0).trainQueue,
      q.mediator = 0) ∧
    (canArrive ((arrive (Train.mk .PassengerTrain 2 0) (arrive (Train.mk .FreightTrain 1 0)
        (arrive (Train.mk .PassengerTrain 0 0) World.init))).managers 0)
        (Train.mk .FreightTrain 3 0)).2.trainQueue
      = [Train.mk .FreightTrain 1 0, Train.mk .PassengerTrain 2 0,
         Train.mk .FreightTrain 3 0] ∧
    (notifyAboutDeparture 0 (arrive (Train.mk .PassengerTrain 2 0)
        (arrive (Train.mk .FreightTrain 1 0)
          (arrive (Train.mk .PassengerTrain 0 0) World.init)))).managers 0
      = { isPlatformFree := false, trainQueue := [Train.mk .PassengerTrain 2 0] } :=
  ⟨by decide, by decide,
   (congrArg (fun r => r.2.trainQueue)
     (C7_fifo_release (arrive (Train.mk .PassengerTrain 2 0)
        (arrive (Train.mk .FreightTrain 1 0)
          (arrive (Train.mk .PassengerTrain 0 0) World.init))) 0
        (Train.mk .FreightTrain 3 0) (by decide) (by decide)).1).trans (by decide),
   (C7_fifo_release (arrive (Train.mk .PassengerTrain 2 0)
        (arrive (Train.mk .FreightTrain 1 0)
          (arrive (Train.mk .PassengerTrain 0 0) World.init))) 0
        (Train.mk .FreightTrain 3 0) (by decide) (by decide)).2.1⟩

end MediatorPattern

/-! ## Decorator: theorems -/

namespace DecoratorPattern

/-- C8: for every stack of `TomatoTopping` and `CheeseTopping` decorators around a
`VeggieMania`, `getPrice` is 15 plus 7 for each tomato layer plus 10 for each
cheese layer; so two stacks with the same numbers of layers have the same price;
tomato over cheese and cheese over tomato both cost 32, which is what the driver
prints. -/
theorem C8_price_is_base_plus_increments :
    (∀ p : IPizza, getPrice p = 15 + 7 * (tomatoLayers p : Int) + 10 * (cheeseLayers p : Int)) ∧
    (∀ p q : IPizza, tomatoLayers p = tomatoLayers q → cheeseLayers p = cheeseLayers q →
      getPrice p = getPrice q) ∧
    getPrice (.TomatoTopping (.CheeseTopping .VeggieMania)) = 32 ∧
    getPrice (.CheeseTopping (.TomatoTopping .VeggieMania)) = 32 ∧
    main = "Price of veggeMania with tomato and cheese topping is 32" := by
  have hprice : ∀ p : IPizza,
      getPrice p = 15 + 7 * (tomatoLayers p : Int) + 10 * (cheeseLayers p : Int) := by
    intro p
    induction p with
    | VeggieMania => simp [getPrice, tomatoLayers, cheeseLayers]
    | TomatoTopping pizza ih =>
      simp only [getPrice, tomatoLayers, cheeseLayers, ih]
      push_cast
      ring
    | CheeseTopping pizza ih =>
      simp only [getPrice, tomatoLayers, cheeseLayers, ih]
      push_cast
      ring
  refine ⟨hprice, ?_, by decide, by decide, by decide⟩
  intro p q ht hc
  rw [hprice p, hprice q, ht, hc]

end DecoratorPattern

/-! ## Visitor: theorems -/

namespace VisitorPattern

/-- C9: for every element and every visitor (with any fields and any earlier
output), `accept` is one call of the handler for the element's own type: the
output gains exactly one line, the line of that handler of that visitor, the
visitor is left as it was, and no other handler of the visitor prints that line.
The six lines are listed. -/
theorem C9_accept_calls_own_handler_once (sh : Shape) (st : State) :
    (match sh with
     | .Square s => accept sh st = visitForSquare st s
     | .Circle c => accept sh st = visitForCircle st c
     | .Rectangle t => accept sh st = visitForrectangle st t) ∧
    (accept sh st).out = st.out ++ [Handler.line (Handler.ofShape sh) st.visitor] ∧
    (accept sh st).visitor = st.visitor ∧
    (∀ h : Handler,
      Handler.line h st.visitor = Handler.line (Handler.ofShape sh) st.visitor
        ↔ h = Handler.ofShape sh) ∧
    (∀ area : Int,
      Handler.line .visitForSquare (.AreaCalculator area) = "Calculating area for square" ∧
      Handler.line .visitForCircle (.AreaCalculator area) = "Calculating area for circle" ∧
      Handler.line .visitForrectangle (.AreaCalculator area)
        = "Calculating area for rectangle") ∧
    (∀ x y : Int,
      Handler.line .visitForSquare (.MiddleCoordinates x y)
        = "Calculating middle point coordinates for square" ∧
      Handler.line .visitForCircle (.MiddleCoordinates x y)
        = "Calculating middle point coordinates for circle" ∧
      Handler.line .visitForrectangle (.MiddleCoordinates x y)
        = "Calculating middle point coordinates for rectangle") := by
  refine ⟨?_, ?_, ?_, ?_, fun _ => ⟨rfl, rfl, rfl⟩, fun _ _ => ⟨rfl, rfl, rfl⟩⟩
  · cases sh <;> rfl
  · obtain ⟨v, out⟩ := st
    cases sh <;> cases v <;> rfl
  · obtain ⟨v, out⟩ := st
    cases sh <;> cases v <;> rfl
  · obtain ⟨v, out⟩ := st
    intro h
    cases sh <;> cases v <;> cases h <;>
      simp [Handler.line, Handler.ofShape, visitForSquare, visitForCircle, visitForrectangle]

end VisitorPattern

/-! ## Abstract Factory: theorems -/

namespace AbstractFactoryPattern

/-- C10: for each of the two factories, `ClientCode` prints the `UsefulFunctionB`
line of the factory's B-product and then its `AnotherUsefulFunctionB` line for the
factory's own A-product; the products are of one family (A1 with B1, A2 with B2);
the second line contains the `UsefulFunctionA` message of that A-product; and the
outputs for the two factories differ. -/
theorem C10_client_output_consistent_and_distinct (factory : AbstractFactory) :
    ClientCode factory
      = [UsefulFunctionB (CreateProductB factory),
         AnotherUsefulFunctionB (CreateProductB factory) (CreateProductA factory)] ∧
    ((CreateProductA factory = .ConcreteProductA1 ∧
        CreateProductB factory = .ConcreteProductB1) ∨
      (CreateProductA factory = .ConcreteProductA2 ∧
        CreateProductB factory = .ConcreteProductB2)) ∧
    IsSubstring (UsefulFunctionA (CreateProductA factory)) ((ClientCode factory).getD 1 "") ∧
    ClientCode .ConcreteFactory1
      = ["The result of the product B1.",
         "The result of the B1 collaborating with the (The result of the product A1.)"] ∧
    ClientCode .ConcreteFactory2
      = ["The result of the product B2.",
         "The result of the B2 collaborating with the (The result of the product A2.)"] ∧
    ClientCode .ConcreteFactory1 ≠ ClientCode .ConcreteFactory2 := by
  refine ⟨rfl, ?_, ?_, by decide, by decide, by decide⟩
  · cases factory
    · exact Or.inl ⟨rfl, rfl⟩
    · exact Or.inr ⟨rfl, rfl⟩
  · cases factory <;> decide

end AbstractFactoryPattern

/-! ## Template Method: theorems -/

namespace TemplateMethodPattern

theorem sms_ne_email_message (s : String) :
    "SMS OTP for login is " ++ s ≠ "EMAIL OTP for login is " ++ s := by
  intro h
  have h2 := congrArg String.data h
  simp only [String.data_append] at h2
  have h3 := congrArg List.head? h2
  simp at h3

/-- C11 as stated fails: for the length 4 (as for every length) `Sms.genRandomOTP`
and `Email.genRandomOTP` return the same value, `"1234"`. -/
theorem C11_genRandomOTP_same_value_counterexample :
    (Sms.genRandomOTP 4 []).1 = (Email.genRandomOTP 4 []).1 ∧
    ¬ ((Sms.genRandomOTP 4 []).1 ≠ (Email.genRandomOTP 4 []).1) := by
  refine ⟨rfl, ?_⟩
  intro h
  exact h rfl

/-- C11 (amended): the values that `Sms` and `Email` return depend on the input
only (not on what has been printed before); for every otp string the two
`getMessage` values differ; for every length both `genRandomOTP` return `"1234"`
and print different lines; both `sendNotification` return nil. -/
theorem C11_variants_deterministic_messages_distinct
    (n : Int) (s : String) (out1 out2 : List String) :
    (Sms.genRandomOTP n out1).1 = (Sms.genRandomOTP n out2).1 ∧
    (Email.genRandomOTP n out1).1 = (Email.genRandomOTP n out2).1 ∧
    (Sms.getMessage s out1).1 = (Sms.getMessage s out2).1 ∧
    (Email.getMessage s out1).1 = (Email.getMessage s out2).1 ∧
    (Sms.sendNotification s out1).1 = (Sms.sendNotification s out2).1 ∧
    (Email.sendNotification s out1).1 = (Email.sendNotification s out2).1 ∧
    (Sms.getMessage s out1).1 ≠ (Email.getMessage s out1).1 ∧
    (Sms.getMessage s out1).1 = "SMS OTP for login is " ++ s ∧
    (Email.getMessage s out1).1 = "EMAIL OTP for login is " ++ s ∧
    (Sms.genRandomOTP n out1).1 = "1234" ∧
    (Email.genRandomOTP n out1).1 = "1234" ∧
    (Sms.genRandomOTP n out1).2 = out1 ++ ["SMS: generating random otp 1234"] ∧
    (Email.genRandomOTP n out1).2 = out1 ++ ["EMAIL: generating random otp 1234"] ∧
    (Sms.sendNotification s out1).1 = none ∧
    (Email.sendNotification s out1).1 = none := by
  refine ⟨rfl, rfl, rfl, rfl, rfl, rfl, sms_ne_email_message s, rfl, rfl, rfl, rfl,
    ?_, ?_, rfl, rfl⟩
  · simp [Sms]
  · simp [Email]

/-- C19: for every implementation of `IOtp`, every state and every length `n`,
`genAndSendOTP n` makes exactly four calls, in this order: `genRandomOTP n`,
`saveOTPCache otp`, `getMessage otp`, `sendNotification message`, where `otp` is
what `genRandomOTP` returned and `message` what `getMessage` returned; it returns
the error of `sendNotification`; the recorder changes neither the error nor the
state.  For `Sms` and `Email` the error is nil and the message sent is
`"SMS OTP for login is 1234"` and `"EMAIL OTP for login is 1234"`. -/
theorem C19_template_steps_in_order {σ : Type} (impl : IOtp σ) (n : Int) (s : σ) :
    (genAndSendOTP (recorded impl) n (s, [])).2.2
      = [MethodCall.genRandomOTP n,
         MethodCall.saveOTPCache (impl.genRandomOTP n s).1,
         MethodCall.getMessage (impl.genRandomOTP n s).1,
         MethodCall.sendNotification
           (impl.getMessage (impl.genRandomOTP n s).1
             (impl.saveOTPCache (impl.genRandomOTP n s).1 (impl.genRandomOTP n s).2)).1] ∧
    (genAndSendOTP impl n s).1
      = (impl.sendNotification
          (impl.getMessage (impl.genRandomOTP n s).1
            (impl.saveOTPCache (impl.genRandomOTP n s).1 (impl.genRandomOTP n s).2)).1
          (impl.getMessage (impl.genRandomOTP n s).1
            (impl.saveOTPCache (impl.genRandomOTP n s).1 (impl.genRandomOTP n s).2)).2).1 ∧
    (genAndSendOTP (recorded impl) n (s, [])).1 = (genAndSendOTP impl n s).1 ∧
    (genAndSendOTP (recorded impl) n (s, [])).2.1 = (genAndSendOTP impl n s).2 ∧
    (∀ out : List String,
      (genAndSendOTP Sms n out).1 = none ∧
      (genAndSendOTP (recorded Sms) n (out, [])).2.2
        = [MethodCall.genRandomOTP n, MethodCall.saveOTPCache "1234",
           MethodCall.getMessage "1234",
           MethodCall.sendNotification "SMS OTP for login is 1234"] ∧
      (genAndSendOTP Sms n out).2
        = out ++ ["SMS: generating random otp 1234", "SMS: saving otp: 1234 to cache",
                  "SMS: sending sms: SMS OTP for login is 1234"]) ∧
    (∀ out : List String,
      (genAndSendOTP Email n out).1 = none ∧
      (genAndSendOTP (recorded Email) n (out, [])).2.2
        = [MethodCall.genRandomOTP n, MethodCall.saveOTPCache "1234",
           MethodCall.getMessage "1234",
           MethodCall.sendNotification "EMAIL OTP for login is 1234"] ∧
      (genAndSendOTP Email n out).2
        = out ++ ["EMAIL: generating random otp 1234", "EMAIL: saving otp: 1234 to cache",
                  "EMAIL: sending email: EMAIL OTP for login is 1234"]) ∧
    main = ["SMS: generating random otp 1234", "SMS: saving otp: 1234 to cache",
            "SMS: sending sms: SMS OTP for login is 1234", "",
            "EMAIL: generating random otp 1234", "EMAIL: saving otp: 1234 to cache",
            "EMAIL: sending email: EMAIL OTP for login is 1234"] := by
  have hgen : ∀ {τ : Type} (i : IOtp τ) (t : τ),
      genAndSendOTP i n t
        = ((i.sendNotification
              (i.getMessage (i.genRandomOTP n t).1
                (i.saveOTPCache (i.genRandomOTP n t).1 (i.genRandomOTP n t).2)).1
              (i.getMessage (i.genRandomOTP n t).1
                (i.saveOTPCache (i.genRandomOTP n t).1 (i.genRandomOTP n t).2)).2).1,
           (i.sendNotification
              (i.getMessage (i.genRandomOTP n t).1
                (i.saveOTPCache (i.genRandomOTP n t).1 (i.genRandomOTP n t).2)).1
              (i.getMessage (i.genRandomOTP n t).1
                (i.saveOTPCache (i.genRandomOTP n t).1 (i.genRandomOTP n t).2)).2).2) := by
    intro τ i t
    unfold genAndSendOTP
    simp only []
    split
    · rfl
    · rename_i h
      have h2 := not_not.mp h
      rw [← h2]
  refine ⟨?_, ?_, ?_, ?_, ?_, ?_, by decide⟩
  · rw [hgen]; simp [recorded]
  · rw [hgen]
  · rw [hgen, hgen]; simp [recorded]
  · rw [hgen, hgen]; simp [recorded]
  · intro out
    refine ⟨?_, ?_, ?_⟩
    · rw [hgen]; rfl
    · rw [hgen]; simp [recorded, Sms]
    · rw [hgen]; simp [Sms]
  · intro out
    refine ⟨?_, ?_, ?_⟩
    · rw [hgen]; rfl
    · rw [hgen]; simp [recorded, Email]
    · rw [hgen]; simp [Email]

end TemplateMethodPattern

/-! ## Flyweight: theorems on players, cache content and the game -/

namespace FlyweightPattern

theorem notMem_of_mapGet_none (m : List (String × Dress)) (k : String)
    (hv : ∀ e ∈ m, e.2 ≠ none) (h : mapGet m k = none) : ∀ e ∈ m, e.1 ≠ k := by
  induction m with
  | nil => intro e he; simp at he
  | cons x rest ih =>
    obtain ⟨k', v'⟩ := x
    have hv' : v' ≠ none := hv (k', v') (by simp)
    have hrest : ∀ e ∈ rest, e.2 ≠ none := fun e he => hv e (List.mem_cons_of_mem _ he)
    by_cases hk : k' = k
    · simp [mapGet, hk] at h
      exact absurd h hv'
    · simp only [mapGet, hk, if_false] at h
      intro e he
      rcases List.mem_cons.mp he with he | he
      · rw [he]; exact hk
      · exact ih hrest h e he

theorem mapSet_of_notMem (m : List (String × Dress)) (k : String) (v : Dress)
    (h : ∀ e ∈ m, e.1 ≠ k) : mapSet m k v = m ++ [(k, v)] := by
  induction m with
  | nil => rfl
  | cons x rest ih =>
    obtain ⟨k', v'⟩ := x
    have hk : k' ≠ k := h (k', v') (by simp)
    have hrest : ∀ e ∈ rest, e.1 ≠ k := fun e he => h e (List.mem_cons_of_mem _ he)
    simp [mapSet, hk, ih hrest]

theorem cacheInv_values (w : World) (h : CacheInv w) :
    ∀ e ∈ w.dressFactorySingleInstance.dressMap, e.2 ≠ none := by
  intro e he
  rcases h.1 e he with ⟨_, a, ha, _⟩ | ⟨_, a, ha, _⟩ <;> simp [ha]

theorem get?_append_left_some (heap : List DressObject) (x y : DressObject) (a : Nat)
    (h : heap.get? a = some x) : (heap ++ [y]).get? a = some x := by
  have hlt : a < heap.length := by
    by_contra hc
    have : heap.get? a = none := List.get?_eq_none.mpr (Nat.le_of_not_lt hc)
    rw [this] at h
    exact absurd h (by simp)
  simp only [List.get?_eq_getElem?] at h ⊢
  rw [List.getElem?_append_left hlt]
  exact h

/-- Adding a freshly allocated dress under a key that the cache does not hold keeps
the cache invariant. -/
theorem cacheInv_insert (w : World) (k : String) (obj : DressObject) (h : CacheInv w)
    (hmiss : mapGet w.dressFactorySingleInstance.dressMap k = none)
    (hobj : (k = TerroristDressType ∧ obj = DressObject.TerroristDress "red") ∨
      (k = CounterTerrroristDressType ∧ obj = DressObject.CounterTerroristDress "green")) :
    CacheInv { heap := w.heap ++ [obj],
               dressFactorySingleInstance :=
                 { dressMap := mapSet w.dressFactorySingleInstance.dressMap k
                     (some w.heap.length) } } := by
  have hnot := notMem_of_mapGet_none _ k (cacheInv_values w h) hmiss
  obtain ⟨h1, h2, h3⟩ := h
  rw [mapSet_of_notMem _ _ _ hnot]
  refine ⟨?_, ?_, ?_⟩
  · intro e he
    rcases List.mem_append.mp he with he | he
    · rcases h1 e he with ⟨hk, a, ha, hg⟩ | ⟨hk, a, ha, hg⟩
      · exact Or.inl ⟨hk, a, ha, get?_append_left_some _ _ _ _ hg⟩
      · exact Or.inr ⟨hk, a, ha, get?_append_left_some _ _ _ _ hg⟩
    · have he2 : e = (k, some w.heap.length) := by simpa using he
      have hget : (w.heap ++ [obj]).get? w.heap.length = some obj := by simp
      rcases hobj with ⟨hk, ho⟩ | ⟨hk, ho⟩
      · exact Or.inl ⟨by rw [he2]; exact hk, w.heap.length, by rw [he2], by rw [hget, ho]⟩
      · exact Or.inr ⟨by rw [he2]; exact hk, w.heap.length, by rw [he2], by rw [hget, ho]⟩
  · simp only [List.map_append, List.map_cons, List.map_nil]
    rw [List.nodup_append]
    refine ⟨h2, by simp, ?_⟩
    intro a ha1 ha2
    have hak : a = k := by simpa using ha2
    obtain ⟨e, he, hea⟩ := List.mem_map.mp ha1
    exact hnot e he (by rw [hea, hak])
  · simp [h3]

theorem cacheInv_step (w : World) (key : String) (h : CacheInv w) :
    CacheInv (getDressByType w key).2 := by
  by_cases h1 : mapGet w.dressFactorySingleInstance.dressMap key = none
  · by_cases h2 : key = TerroristDressType
    · subst h2
      rw [getDressByType_miss_t w h1]
      exact cacheInv_insert w _ _ h h1 (Or.inl ⟨rfl, rfl⟩)
    · by_cases h3 : key = CounterTerrroristDressType
      · subst h3
        rw [getDressByType_miss_ct w h1]
        exact cacheInv_insert w _ _ h h1 (Or.inr ⟨rfl, rfl⟩)
      · rw [getDressByType_unknown w key h1 h2 h3]
        exact h
  · rw [getDressByType_hit w key h1]
    exact h

theorem cacheInv_foldl (keys : List String) (w : World) (h : CacheInv w) :
    CacheInv (keys.foldl (fun w k => (getDressByType w k).2) w) := by
  induction keys generalizing w with
  | nil => exact h
  | cons k ks ih => exact ih _ (cacheInv_step w k h)

theorem cacheInv_reach (keys : List String) : CacheInv (reach keys) := by
  apply cacheInv_foldl
  refine ⟨?_, ?_, ?_⟩ <;> simp [World.init]

theorem cacheInv_length_le (w : World) (h : CacheInv w) :
    w.dressFactorySingleInstance.dressMap.length ≤ 2 := by
  obtain ⟨h1, h2, _⟩ := h
  have hsub : w.dressFactorySingleInstance.dressMap.map Prod.fst
      ⊆ [TerroristDressType, CounterTerrroristDressType] := by
    intro a ha
    obtain ⟨e, he, hea⟩ := List.mem_map.mp ha
    rcases h1 e he with ⟨hk, _⟩ | ⟨hk, _⟩
    · rw [← hea, hk]; simp
    · rw [← hea, hk]; simp
  have hlen := (List.Nodup.subperm h2 hsub).length_le
  simpa using hlen

theorem playersOf_length (playerType : String) (ds : List String) (w : World) :
    (playersOf playerType ds w).length = ds.length := by
  induction ds generalizing w with
  | nil => rfl
  | cons d ds ih => simp [playersOf, ih]

theorem addTerrorists_roster (ds : List String) (g : game × World) :
    (addTerrorists ds g).1.terrorists
      = g.1.terrorists ++ (playersOf "T" ds g.2).map some ∧
    (addTerrorists ds g).1.counterTerrorists = g.1.counterTerrorists := by
  induction ds generalizing g with
  | nil => simp [addTerrorists, playersOf]
  | cons d ds ih =>
    have h := ih (addTerrorist g.1 g.2 d)
    simp only [addTerrorists, List.foldl_cons] at h ⊢
    rw [h.1, h.2]
    simp [addTerrorist, playersOf]

theorem addCounterTerrorists_roster (ds : List String) (g : game × World) :
    (addCounterTerrorists ds g).1.counterTerrorists
      = g.1.counterTerrorists ++ (playersOf "CT" ds g.2).map some ∧
    (addCounterTerrorists ds g).1.terrorists = g.1.terrorists := by
  induction ds generalizing g with
  | nil => simp [addCounterTerrorists, playersOf]
  | cons d ds ih =>
    have h := ih (addCounterTerrorist g.1 g.2 d)
    simp only [addCounterTerrorists, List.foldl_cons] at h ⊢
    rw [h.1, h.2]
    simp [addCounterTerrorist, playersOf]

/-- C13: in every factory state reached from the empty cache, and for all strings
`playerType` and `dressType`, `newPlayer` returns a player with that player type
and zero `lat` and `long`; its dress is what the cache then holds for the key; the
dress is nil exactly when the key is neither `"tDress"` nor `"ctDress"`; and the
state is changed as by `getDressByType` alone, whose error is dropped. -/
theorem C13_newPlayer_ignores_lookup_failure (keys : List String)
    (playerType dressType : String) :
    (newPlayer (reach keys) playerType dressType).1.playerType = playerType ∧
    (newPlayer (reach keys) playerType dressType).1.lat = 0 ∧
    (newPlayer (reach keys) playerType dressType).1.long = 0 ∧
    (newPlayer (reach keys) playerType dressType).1.dress
      = mapGet (newPlayer (reach keys) playerType
          dressType).2.dressFactorySingleInstance.dressMap dressType ∧
    ((newPlayer (reach keys) playerType dressType).1.dress = none ↔
      (dressType ≠ TerroristDressType ∧ dressType ≠ CounterTerrroristDressType)) ∧
    (newPlayer (reach keys) playerType dressType).2
      = (getDressByType (reach keys) dressType).2 := by
  refine ⟨rfl, rfl, rfl, ?_, ?_, rfl⟩
  · show (getDressByType (reach keys) dressType).1.dress
      = mapGet (getDressByType (reach keys) dressType).2.dressFactorySingleInstance.dressMap
          dressType
    by_cases hk : dressType = TerroristDressType ∨ dressType = CounterTerrroristDressType
    · exact (sameKey_twice (reach keys) dressType hk).2.2.2.2.1
    · have ha : dressType ≠ TerroristDressType := fun e => hk (Or.inl e)
      have hb : dressType ≠ CounterTerrroristDressType := fun e => hk (Or.inr e)
      have hmiss : mapGet (reach keys).dressFactorySingleInstance.dressMap dressType
          = none := by
        by_contra hc
        exact hk (keysKnown_reach keys dressType hc)
      rw [getDressByType_unknown (reach keys) dressType hmiss ha hb]
      exact hmiss.symm
  · show (getDressByType (reach keys) dressType).1.dress = none ↔ _
    by_cases hk : dressType = TerroristDressType ∨ dressType = CounterTerrroristDressType
    · have hne := (sameKey_twice (reach keys) dressType hk).2.2.1
      constructor
      · intro h; exact absurd h hne
      · rintro ⟨a, b⟩
        rcases hk with hk | hk
        · exact absurd hk a
        · exact absurd hk b
    · have ha : dressType ≠ TerroristDressType := fun e => hk (Or.inl e)
      have hb : dressType ≠ CounterTerrroristDressType := fun e => hk (Or.inr e)
      have hmiss : mapGet (reach keys).dressFactorySingleInstance.dressMap dressType
          = none := by
        by_contra hc
        exact hk (keysKnown_reach keys dressType hc)
      rw [getDressByType_unknown (reach keys) dressType hmiss ha hb]
      simp [ha, hb]

/-- C14: in every factory state reached from the empty cache by `getDressByType`
calls with any keys, every cache entry has the key `"tDress"` with a dress of
color `"red"` or the key `"ctDress"` with a dress of color `"green"`, no key
occurs twice, and the cache holds at most two entries (and no more dresses are
allocated than the cache holds).  After the driver's seven `add` calls the cache
is `tDress` (red) and `ctDress` (green). -/
theorem C14_cache_content (keys : List String) :
    (∀ e ∈ (reach keys).dressFactorySingleInstance.dressMap,
      (e.1 = "tDress" ∧ dressColor (reach keys) e.2 = some "red") ∨
      (e.1 = "ctDress" ∧ dressColor (reach keys) e.2 = some "green")) ∧
    ((reach keys).dressFactorySingleInstance.dressMap.map Prod.fst).Nodup ∧
    (reach keys).dressFactorySingleInstance.dressMap.length ≤ 2 ∧
    (reach keys).heap.length = (reach keys).dressFactorySingleInstance.dressMap.length ∧
    main.2.dressFactorySingleInstance.dressMap = [("tDress", some 0), ("ctDress", some 1)] ∧
    main.2.heap
      = [DressObject.TerroristDress "red", DressObject.CounterTerroristDress "green"] ∧
    dressColor main.2 (mapGet main.2.dressFactorySingleInstance.dressMap "tDress")
      = some "red" ∧
    dressColor main.2 (mapGet main.2.dressFactorySingleInstance.dressMap "ctDress")
      = some "green" := by
  have hinv := cacheInv_reach keys
  refine ⟨?_, hinv.2.1, cacheInv_length_le _ hinv, hinv.2.2,
    by decide, by decide, by decide, by decide⟩
  intro e he
  rcases hinv.1 e he with ⟨hk, a, ha, hg⟩ | ⟨hk, a, ha, hg⟩
  · refine Or.inl ⟨hk, ?_⟩
    rw [ha]
    show ((reach keys).heap.get? a).map DressObject.getColor = some "red"
    rw [hg]; rfl
  · refine Or.inr ⟨hk, ?_⟩
    rw [ha]
    show ((reach keys).heap.get? a).map DressObject.getColor = some "green"
    rw [hg]; rfl

/-- C20: `newGame` returns rosters that each hold one nil entry already; so after
`addTerrorist` calls with the dress types `ds`, from any factory state, the roster
is the nil entry followed by the players of the calls in order, of length
`ds.length + 1` (and likewise for `addCounterTerrorist`); in the driver the
rosters have lengths 5 and 4 and start with nil. -/
theorem C20_roster_has_leading_nil (ds : List String) (w : World) :
    newGame.terrorists = [none] ∧
    newGame.counterTerrorists = [none] ∧
    (addTerrorists ds (newGame, w)).1.terrorists
      = none :: (playersOf "T" ds w).map some ∧
    (addTerrorists ds (newGame, w)).1.terrorists.length = ds.length + 1 ∧
    (addCounterTerrorists ds (newGame, w)).1.counterTerrorists
      = none :: (playersOf "CT" ds w).map some ∧
    (addCounterTerrorists ds (newGame, w)).1.counterTerrorists.length = ds.length + 1 ∧
    main.1.terrorists.length = 5 ∧
    main.1.counterTerrorists.length = 4 ∧
    main.1.terrorists.head? = some none ∧
    main.1.counterTerrorists.head? = some none := by
  have ht := (addTerrorists_roster ds (newGame, w)).1
  have hc := (addCounterTerrorists_roster ds (newGame, w)).1
  refine ⟨rfl, rfl, ?_, ?_, ?_, ?_, by decide, by decide, by decide, by decide⟩
  · rw [ht]; rfl
  · rw [ht]; simp [newGame, playersOf_length]
  · rw [hc]; rfl
  · rw [hc]; simp [newGame, playersOf_length]

end FlyweightPattern

/-! ## Mediator: theorems on the wait queue -/

namespace MediatorPattern

theorem queueInv_init (m : Nat) : QueueInv m World.init := by
  simp [QueueInv, World.init, newStationManger]

theorem queueInv_canArrive (m : Nat) (t : Train) (w : World) (ht : t.mediator = m)
    (h : QueueInv m w) :
    QueueInv m (w.setManager m (canArrive (w.managers m) t).2) := by
  obtain ⟨hreg, hq⟩ := h
  cases hf : (w.managers m).isPlatformFree with
  | true =>
    have hnil : (w.managers m).trainQueue = [] := by
      rcases hq with hq | hq
      · exact hq
      · rw [hf] at hq; exact absurd hq (by simp)
    simp [QueueInv, World.setManager, canArrive, hf, hnil]
  | false =>
    refine ⟨?_, Or.inr ?_⟩
    · intro q hqm
      simp only [World.setManager, canArrive, hf, if_true, Bool.false_eq_true, if_false,
        List.mem_append, List.mem_singleton] at hqm
      rcases hqm with hqm | hqm
      · exact hreg q hqm
      · rw [hqm]; exact ht
    · simp [World.setManager, canArrive, hf]

theorem queueInv_notify (m : Nat) (w : World) (h : QueueInv m w) :
    QueueInv m (notifyAboutDeparture m w) := by
  obtain ⟨hreg, _⟩ := h
  cases hqueue : (w.managers m).trainQueue with
  | nil =>
    obtain ⟨h1, _, _, _⟩ := notify_empty m w hqueue
    rw [QueueInv, h1]
    simp
  | cons t1 rest =>
    have ht1 : t1.mediator = m := hreg t1 (by rw [hqueue]; simp)
    obtain ⟨h1, _, _, _⟩ := notify_cons m w t1 rest hqueue ht1
    rw [QueueInv, h1]
    refine ⟨?_, Or.inr rfl⟩
    intro q hqm
    exact hreg q (by rw [hqueue]; exact List.mem_cons_of_mem _ hqm)

theorem queueInv_runManagerCalls (m : Nat) (cs : List ManagerCall) (w : World)
    (hreg : registeredTo m cs = true) (h : QueueInv m w) :
    QueueInv m (runManagerCalls m cs w) := by
  induction cs generalizing w with
  | nil => exact h
  | cons c cs ih =>
    cases c with
    | canArrive t =>
      simp only [registeredTo, Bool.and_eq_true, decide_eq_true_eq] at hreg
      exact ih _ hreg.2 (queueInv_canArrive m t w hreg.1 h)
    | notifyAboutDeparture =>
      simp only [registeredTo] at hreg
      exact ih _ hreg (queueInv_notify m w h)

/-- C18: in every state that the manager at address `m` reaches from
`newStationManger()` by completed `canArrive` and `notifyAboutDeparture` calls, all
with trains registered to `m`, a non-empty wait queue implies that the platform is
not free. -/
theorem C18_no_waiter_while_platform_free (m : Nat) (cs : List ManagerCall)
    (hreg : registeredTo m cs = true)
    (hqueue : ((runManagerCalls m cs World.init).managers m).trainQueue ≠ []) :
    ((runManagerCalls m cs World.init).managers m).isPlatformFree = false := by
  rcases (queueInv_runManagerCalls m cs World.init hreg (queueInv_init m)).2 with h | h
  · exact absurd h hqueue
  · exact h

/-- C18 on the calls `canArrive(A)`, `canArrive(B)`, `canArrive(C)`,
`notifyAboutDeparture()`: the queue is then `[C]` and the platform is occupied. -/
theorem C18_no_waiter_while_platform_free_witness :
    registeredTo 0 [ManagerCall.canArrive (Train.mk .PassengerTrain 0 0),
      ManagerCall.canArrive (Train.mk .FreightTrain 1 0),
      ManagerCall.canArrive (Train.mk .FreightTrain 2 0),
      ManagerCall.notifyAboutDeparture] = true ∧
    ((runManagerCalls 0 [ManagerCall.canArrive (Train.mk .PassengerTrain 0 0),
      ManagerCall.canArrive (Train.mk .FreightTrain 1 0),
      ManagerCall.canArrive (Train.mk .FreightTrain 2 0),
      ManagerCall.notifyAboutDeparture] World.init).managers 0).trainQueue
      = [Train.mk .FreightTrain 2 0] ∧
    ((runManagerCalls 0 [ManagerCall.canArrive (Train.mk .PassengerTrain 0 0),
      ManagerCall.canArrive (Train.mk .FreightTrain 1 0),
      ManagerCall.canArrive (Train.mk .FreightTrain 2 0),
      ManagerCall.notifyAboutDeparture] World.init).managers 0).isPlatformFree = false :=
  ⟨by decide, by decide,
   C18_no_waiter_while_platform_free 0 _ (by decide) (by decide)⟩

end MediatorPattern

/-! ## Iterator: theorems -/

namespace IteratorPattern

theorem getNext_inRange (us : List UserPtr) (i : Nat) (h : i < us.length) :
    getNext { index := (i : Int), users := us }
      = some (us.get ⟨i, h⟩, { index := ((i + 1 : Nat) : Int), users := us }) := by
  have hlt : (i : Int) < (us.length : Int) := by exact_mod_cast h
  simp [getNext, hasNext, hlt, sliceIndex, List.getElem?_eq_getElem h]

theorem getNext_atEnd (us : List UserPtr) :
    getNext { index := (us.length : Int), users := us }
      = some (none, { index := (us.length : Int), users := us }) := by
  simp [getNext, hasNext]

theorem getNextTimes_from (us : List UserPtr) (k i : Nat) (hi : i ≤ us.length) :
    getNextTimes k { index := (i : Int), users := us }
      = some ((us.drop i).take k ++ List.replicate (k - (us.length - i)) none,
              { index := ((min (i + k) us.length : Nat) : Int), users := us }) := by
  induction k generalizing i with
  | zero => simp [getNextTimes, Nat.min_eq_left hi]
  | succ k ih =>
    by_cases hlt : i < us.length
    · have hstep := getNext_inRange us i hlt
      have hrec := ih (i + 1) hlt
      simp only [getNextTimes, hstep, hrec]
      have hdrop : us.drop i = us.get ⟨i, hlt⟩ :: us.drop (i + 1) := by
        rw [List.drop_eq_getElem_cons hlt]
        rfl
      have h1 : k + 1 - (us.length - i) = k - (us.length - (i + 1)) := by omega
      have h2 : i + 1 + k = i + (k + 1) := by omega
      rw [hdrop, h1, h2]
      simp only [List.take_succ_cons, List.cons_append]
    · have heq : i = us.length := by omega
      subst heq
      have hstep := getNext_atEnd us
      have hrec := ih us.length (Nat.le_refl _)
      simp only [getNextTimes, hstep, hrec]
      simp [List.replicate_succ]

/-- C17: for every user list `us` (of length `n`) and every number `k` of `getNext`
calls on the iterator that `createIterator` returns: the iterator starts at index
0; no call panics; the calls return the first `k` users in order, followed by nil
for each call beyond the `n`-th; the index afterwards is `min k n` (so between 0
and `n`, and unchanged by calls beyond the `n`-th); `hasNext` is then true exactly
when `k < n`; in particular the first `n` calls return exactly `us`.  The driver
prints its two users. -/
theorem C17_iterator_walks_users_in_order (us : List UserPtr) (k : Nat) :
    (createIterator { users := us }).index = 0 ∧
    (createIterator { users := us }).users = us ∧
    getNextTimes k (createIterator { users := us })
      = some (us.take k ++ List.replicate (k - us.length) none,
              { index := ((min k us.length : Nat) : Int), users := us }) ∧
    hasNext { index := ((min k us.length : Nat) : Int), users := us }
      = decide (k < us.length) ∧
    getNextTimes us.length (createIterator { users := us })
      = some (us, { index := (us.length : Int), users := us }) ∧
    getNext { index := (us.length : Int), users := us }
      = some (none, { index := (us.length : Int), users := us }) ∧
    main = some ["User is &\x7bname:a age:30\x7d", "User is &\x7bname:b age:20\x7d"] := by
  have h0 : createIterator { users := us } = { index := ((0 : Nat) : Int), users := us } := rfl
  refine ⟨rfl, rfl, ?_, ?_, ?_, getNext_atEnd us, by decide⟩
  · rw [h0, getNextTimes_from us k 0 (Nat.zero_le _)]
    simp
  · by_cases hk : k < us.length
    · have hm : min k us.length = k := Nat.min_eq_left (Nat.le_of_lt hk)
      have hlt : (k : Int) < (us.length : Int) := by exact_mod_cast hk
      simp [hasNext, hm, hk, hlt]
    · have hm : min k us.length = us.length := Nat.min_eq_right (Nat.le_of_not_lt hk)
      simp [hasNext, hm, hk]
  · rw [h0, getNextTimes_from us us.length 0 (Nat.zero_le _)]
    simp

end IteratorPattern

/-! ## Interpreter: theorems -/

namespace InterpreterPattern

theorem pop_nil : pop [] = none := rfl

theorem pop_concat (s : List Expression) (x : Expression) : pop (s ++ [x]) = some (x, s) := by
  simp [pop]

theorem short_or_two_on_top (l : List Expression) :
    l = [] ∨ (∃ x, l = [x]) ∨ ∃ s a b, l = s ++ [a, b] := by
  rcases List.eq_nil_or_concat l with h | ⟨l1, b, h⟩
  · exact Or.inl h
  · rcases List.eq_nil_or_concat l1 with h1 | ⟨l2, a, h1⟩
    · right; left
      exact ⟨b, by rw [h, h1]; rfl⟩
    · right; right
      exact ⟨l2, a, b, by rw [h, h1]; simp⟩

theorem parseStep_plus (s : List Expression) (a b : Expression) :
    parseStep (s ++ [a, b]) "+" = some (s ++ [Expression.Plus a b]) := by
  have h1 : pop (s ++ [a, b]) = some (b, s ++ [a]) := by
    have := pop_concat (s ++ [a]) b
    simpa using this
  simp [parseStep, h1, pop_concat]

theorem parseStep_minus (s : List Expression) (a b : Expression) :
    parseStep (s ++ [a, b]) "-" = some (s ++ [Expression.Minus a b]) := by
  have h1 : pop (s ++ [a, b]) = some (b, s ++ [a]) := by
    have := pop_concat (s ++ [a]) b
    simpa using this
  have hne : ¬ ("-" = "+") := by decide
  simp [parseStep, h1, pop_concat, hne]

theorem parseStep_operator_short (stack : List Expression) (token : String)
    (hop : token = "+" ∨ token = "-") (hlen : stack.length < 2) :
    parseStep stack token = none := by
  have hne : ¬ ("-" = "+") := by decide
  rcases short_or_two_on_top stack with h | ⟨x, h⟩ | ⟨s, a, b, h⟩
  · subst h
    rcases hop with hop | hop <;> subst hop <;> simp [parseStep, pop_nil, hne]
  · subst h
    have h1 : pop [x] = some (x, []) := pop_concat [] x
    rcases hop with hop | hop <;> subst hop <;> simp [parseStep, h1, pop_nil, hne]
  · subst h
    simp at hlen

theorem parseStep_operand (stack : List Expression) (token : String)
    (hplus : token ≠ "+") (hminus : token ≠ "-") :
    parseStep stack token = some (stack ++ [Expression.Number (Atoi token).1]) := by
  simp [parseStep, hplus, hminus]

theorem parseLoop_length (tokens : List String) (stack : List Expression) :
    (parseLoop tokens stack).map List.length = depthAfter tokens stack.length := by
  induction tokens generalizing stack with
  | nil => rfl
  | cons token tokens ih =>
    by_cases hop : token = "+" ∨ token = "-"
    · by_cases hlen : 2 ≤ stack.length
      · rcases short_or_two_on_top stack with h | ⟨x, h⟩ | ⟨s, a, b, h⟩
        · subst h; simp at hlen
        · subst h; simp at hlen
        · subst h
          have hd : depthAfter (token :: tokens) (s ++ [a, b]).length
              = depthAfter tokens (s.length + 1) := by
            simp [depthAfter, hop]
          rcases hop with hop | hop
          · subst hop
            rw [hd]
            simp only [parseLoop, parseStep_plus]
            rw [ih]; simp
          · subst hop
            rw [hd]
            simp only [parseLoop, parseStep_minus]
            rw [ih]; simp
      · have hshort : stack.length < 2 := Nat.lt_of_not_le hlen
        simp [parseLoop, parseStep_operator_short stack token hop hshort, depthAfter, hop, hlen]
    · have hplus : token ≠ "+" := fun e => hop (Or.inl e)
      have hminus : token ≠ "-" := fun e => hop (Or.inr e)
      simp only [parseLoop, parseStep_operand stack token hplus hminus, depthAfter, hop,
        if_false]
      rw [ih]; simp

/-- C12 as stated fails: on the empty string, on a string of blanks, on `"+"` and on
`"1 +"` the function `parse` does not return an expression but panics (index out
of range). -/
theorem C12_parse_panics_counterexample :
    parse "" = none ∧ parse "   " = none ∧ parse "+" = none ∧ parse "1 +" = none ∧
    ¬ (∀ s : String, (parse s).isSome = true) := by
  refine ⟨by decide, by decide, by decide, by decide, ?_⟩
  intro h
  have h0 := h ""
  revert h0
  decide

/-- C12 (amended): `parse` returns an expression exactly for the inputs in which
every operator token finds at least two operands on the stack and at least one
value remains at the end; on every other input it panics. -/
theorem C12_parse_succeeds_iff_operands_suffice (s : String) :
    (parse s).isSome = operandsSuffice (Fields s) := by
  have hlen := parseLoop_length (Fields s) []
  unfold parse operandsSuffice
  cases hp : parseLoop (Fields s) [] with
  | none =>
    rw [hp] at hlen
    simp only [Option.map_none', List.length_nil] at hlen
    rw [← hlen]
    rfl
  | some stack =>
    rw [hp] at hlen
    simp only [Option.map_some', List.length_nil] at hlen
    rw [← hlen]
    cases stack with
    | nil => rfl
    | cons e rest => simp

theorem fieldsFrom_no_space (cs cur : List Char) (h : ∀ c ∈ cs, isSpace c = false) :
    fieldsFrom cs cur = if (cur ++ cs).isEmpty then [] else [String.mk (cur ++ cs)] := by
  induction cs generalizing cur with
  | nil => simp [fieldsFrom]
  | cons c cs ih =>
    have hc : isSpace c = false := h c (by simp)
    have hrest : ∀ d ∈ cs, isSpace d = false := fun d hd => h d (List.mem_cons_of_mem _ hd)
    simp [fieldsFrom, hc, ih _ hrest]

theorem fields_single_token (token : String) (hne : token ≠ "")
    (hws : ∀ c ∈ token.data, isSpace c = false) : Fields token = [token] := by
  have hdata : token.data ≠ [] := by
    intro h
    apply hne
    cases token with
    | mk data => simp at h; rw [h]
  unfold Fields
  rw [fieldsFrom_no_space _ _ hws]
  simp [hdata]

theorem wrapInt_of_inRange (z : Int) (h1 : minInt ≤ z) (h2 : z ≤ maxInt) : wrapInt z = z := by
  unfold minInt at h1
  unfold maxInt at h2
  unfold wrapInt
  omega

theorem wrapInt_add (a b : Int) : wrapInt (wrapInt a + wrapInt b) = wrapInt (a + b) := by
  unfold wrapInt
  omega

theorem wrapInt_sub (a b : Int) : wrapInt (wrapInt a - wrapInt b) = wrapInt (a - b) := by
  unfold wrapInt
  omega

end InterpreterPattern

/-! ## Interpreter: theorems on surplus operands -/

namespace InterpreterPattern

theorem foldl_digits_ge (cs : List Char) (n : Nat) :
    n ≤ cs.foldl (fun m c => m * 10 + (c.toNat - 48)) n := by
  induction cs generalizing n with
  | nil => exact Nat.le_refl _
  | cons c cs ih =>
    simp only [List.foldl_cons]
    exact Nat.le_trans (by omega) (ih _)

/-- The digit loop on a run of digits: the number they denote after `n`, or
`maxUint64` with a range error when that number is above `maxUint64`. -/
theorem parseUintLoop_digits (cs : List Char) (n : Nat) (h : cs.all Char.isDigit = true)
    (hn : n ≤ maxUint64) :
    parseUintLoop cs n =
      if cs.foldl (fun m c => m * 10 + (c.toNat - 48)) n ≤ maxUint64 then
        (cs.foldl (fun m c => m * 10 + (c.toNat - 48)) n, none)
      else (maxUint64, some NumError.ErrRange) := by
  induction cs generalizing n with
  | nil => simp [parseUintLoop, hn]
  | cons c cs ih =>
    simp only [List.all_cons, Bool.and_eq_true] at h
    have hge := foldl_digits_ge cs (n * 10 + (c.toNat - 48))
    simp only [parseUintLoop, h.1, if_true, List.foldl_cons]
    by_cases h1 : n ≥ 1844674407370955162
    · have hbig : ¬ cs.foldl (fun m c => m * 10 + (c.toNat - 48)) (n * 10 + (c.toNat - 48))
          ≤ maxUint64 := by
        unfold maxUint64; omega
      simp only [h1, if_true, hbig, if_false]
    · by_cases h2 : n * 10 + (c.toNat - 48) > maxUint64
      · have hbig : ¬ cs.foldl (fun m c => m * 10 + (c.toNat - 48))
            (n * 10 + (c.toNat - 48)) ≤ maxUint64 := by
          omega
        simp only [h1, if_false, h2, if_true, hbig]
      · simp only [h1, if_false, h2]
        exact ih _ h.2 (Nat.le_of_not_lt h2)

/-- The digit loop on characters with a character that is not a digit among them:
a syntax error with 0, unless the digits before that character already pass
`maxUint64`, which is a range error with `maxUint64`. -/
theorem parseUintLoop_nondigit (cs : List Char) (n : Nat) (h : cs.all Char.isDigit = false)
    (hn : n ≤ maxUint64) :
    parseUintLoop cs n =
      if (cs.takeWhile Char.isDigit).foldl (fun m c => m * 10 + (c.toNat - 48)) n
          ≤ maxUint64 then
        (0, some NumError.ErrSyntax)
      else (maxUint64, some NumError.ErrRange) := by
  induction cs generalizing n with
  | nil => simp at h
  | cons c cs ih =>
    by_cases hc : c.isDigit = true
    · have hrest : cs.all Char.isDigit = false := by
        simp only [List.all_cons, hc, Bool.true_and] at h
        exact h
      have hge := foldl_digits_ge (cs.takeWhile Char.isDigit) (n * 10 + (c.toNat - 48))
      simp only [parseUintLoop, hc, if_true, List.takeWhile_cons, List.foldl_cons]
      by_cases h1 : n ≥ 1844674407370955162
      · have hbig : ¬ (cs.takeWhile Char.isDigit).foldl
            (fun m c => m * 10 + (c.toNat - 48)) (n * 10 + (c.toNat - 48)) ≤ maxUint64 := by
          unfold maxUint64; omega
        simp only [h1, if_true, hbig, if_false]
      · by_cases h2 : n * 10 + (c.toNat - 48) > maxUint64
        · have hbig : ¬ (cs.takeWhile Char.isDigit).foldl
              (fun m c => m * 10 + (c.toNat - 48)) (n * 10 + (c.toNat - 48)) ≤ maxUint64 := by
            omega
          simp only [h1, if_false, h2, if_true, hbig]
        · simp only [h1, if_false, h2]
          exact ih _ hrest (Nat.le_of_not_lt h2)
    · simp [parseUintLoop, hc, List.takeWhile_cons, hn]

theorem data_nonempty_of_unsignedPart (token : String)
    (h : (unsignedPart token).isEmpty = false) : token.data.isEmpty = false := by
  cases hd : token.data with
  | nil => simp [unsignedPart, hd] at h
  | cons c cs => rfl

/-- What `Atoi` returns for a decimal integer literal: its value, or the nearest
`int` with a range error when the value does not fit. -/
theorem atoi_of_decimalLiteral (token : String) (h : isDecimalLiteral token = true) :
    Atoi token =
      if literalValue token > maxInt then (maxInt, some NumError.ErrRange)
      else if literalValue token < minInt then (minInt, some NumError.ErrRange)
      else (literalValue token, none) := by
  unfold isDecimalLiteral at h
  simp only [Bool.and_eq_true, Bool.not_eq_true'] at h
  obtain ⟨hne, hall⟩ := h
  have hdata := data_nonempty_of_unsignedPart token hne
  have hloop := parseUintLoop_digits (unsignedPart token) 0 hall (Nat.zero_le _)
  unfold Atoi ParseInt ParseUint
  simp only [hdata, hne, Bool.false_eq_true, if_false, hloop]
  unfold literalValue decimalValue maxInt minInt
  generalize (unsignedPart token).foldl (fun m c => m * 10 + (c.toNat - 48)) 0 = d
  unfold maxUint64
  by_cases hd : d ≤ 18446744073709551615
  · by_cases hneg : token.data.head? = some '-'
    · simp only [hd, if_true, hneg]
      by_cases h1 : d > 9223372036854775808
      · have a1 : ¬ (-(d : Int) > 9223372036854775807) := by omega
        have a2 : (-(d : Int) < -9223372036854775808) := by omega
        simp [h1, a1, a2]
      · have a1 : ¬ (-(d : Int) > 9223372036854775807) := by omega
        have a2 : ¬ (-(d : Int) < -9223372036854775808) := by omega
        simp [h1, a1, a2]
    · simp only [hd, if_true, hneg, if_false]
      by_cases h1 : d ≥ 9223372036854775808
      · have a1 : ((d : Int) > 9223372036854775807) := by omega
        simp [h1, a1]
      · have a1 : ¬ ((d : Int) > 9223372036854775807) := by omega
        have a2 : ¬ ((d : Int) < -9223372036854775808) := by omega
        simp [h1, a1, a2]
  · by_cases hneg : token.data.head? = some '-'
    · have a1 : ¬ (-(d : Int) > 9223372036854775807) := by omega
      have a2 : (-(d : Int) < -9223372036854775808) := by omega
      simp [hd, hneg, a1, a2]
    · have a1 : ((d : Int) > 9223372036854775807) := by omega
      simp [hd, hneg, a1]

/-- What `Atoi` returns for a token that is not a decimal integer literal. -/
theorem atoi_of_rejected (token : String) (h : isDecimalLiteral token = false) :
    Atoi token =
      (rejectedValue token,
       some (if decimalValue (leadingDigits (unsignedPart token)) ≤ maxUint64
             then NumError.ErrSyntax else NumError.ErrRange)) := by
  unfold rejectedValue leadingDigits decimalValue
  by_cases hdata : token.data.isEmpty = true
  · have hu : unsignedPart token = [] := by
      have hnil : token.data = [] := by simpa using hdata
      simp [unsignedPart, hnil]
    simp [Atoi, ParseInt, hdata, hu]
  · by_cases hne : (unsignedPart token).isEmpty = true
    · have hu : unsignedPart token = [] := by simpa using hne
      simp [Atoi, ParseInt, ParseUint, hdata, hu]
    · have hall : (unsignedPart token).all Char.isDigit = false := by
        unfold isDecimalLiteral at h
        simpa [hne] using h
      have hloop := parseUintLoop_nondigit (unsignedPart token) 0 hall (Nat.zero_le _)
      unfold Atoi ParseInt ParseUint
      simp only [hdata, hne, Bool.false_eq_true, if_false, hloop]
      by_cases hd : (List.takeWhile Char.isDigit (unsignedPart token)).foldl
          (fun m c => m * 10 + (c.toNat - 48)) 0 ≤ maxUint64
      · simp [hd]
      · have hm1 : 9223372036854775808 < maxUint64 := by unfold maxUint64; omega
        have hm2 : 9223372036854775808 ≤ maxUint64 := Nat.le_of_lt hm1
        by_cases hneg : token.data.head? = some '-'
        · simp [hd, hneg, hm1]
        · simp [hd, hneg, hm2]

theorem atoi_of_intLiteral (token : String) (h : isIntLiteral token = true) :
    Atoi token = (literalValue token, none) := by
  unfold isIntLiteral at h
  simp only [Bool.and_eq_true, decide_eq_true_eq] at h
  obtain ⟨⟨hdec, hlo⟩, hhi⟩ := h
  rw [atoi_of_decimalLiteral token hdec]
  have h1 : ¬ literalValue token > maxInt := Int.not_lt.mpr hhi
  have h2 : ¬ literalValue token < minInt := Int.not_lt.mpr hlo
  simp only [h1, h2, if_false]

end InterpreterPattern

/-! ## Interpreter: theorems on rejected tokens and on evaluation -/

namespace InterpreterPattern

theorem digit_le_nine (c : Char) (h : c.isDigit = true) : c.toNat - 48 ≤ 9 := by
  unfold Char.isDigit at h
  simp only [Bool.and_eq_true, decide_eq_true_eq] at h
  have h2 : c.val.toNat ≤ 57 := h.2
  have h3 : c.toNat = c.val.toNat := rfl
  omega

theorem foldl_digits_lt (cs : List Char) (n : Nat) (h : cs.all Char.isDigit = true) :
    cs.foldl (fun m c => m * 10 + (c.toNat - 48)) n + 1 ≤ (n + 1) * 10 ^ cs.length := by
  induction cs generalizing n with
  | nil => simp
  | cons c cs ih =>
    simp only [List.all_cons, Bool.and_eq_true] at h
    have hd := digit_le_nine c h.1
    have hrec := ih (n * 10 + (c.toNat - 48)) h.2
    simp only [List.foldl_cons, List.length_cons]
    have hstep : (n * 10 + (c.toNat - 48) + 1) * 10 ^ cs.length
        ≤ (n + 1) * 10 ^ (cs.length + 1) := by
      have : n * 10 + (c.toNat - 48) + 1 ≤ (n + 1) * 10 := by omega
      calc (n * 10 + (c.toNat - 48) + 1) * 10 ^ cs.length
          ≤ ((n + 1) * 10) * 10 ^ cs.length := Nat.mul_le_mul_right _ this
        _ = (n + 1) * 10 ^ (cs.length + 1) := by rw [Nat.pow_succ]; ring
    exact Nat.le_trans hrec hstep

/-- At most 19 leading digits never pass `maxUint64`. -/
theorem rejectedValue_of_short (token : String)
    (h : (leadingDigits (unsignedPart token)).length ≤ 19) : rejectedValue token = 0 := by
  have hall : (leadingDigits (unsignedPart token)).all Char.isDigit = true := by
    unfold leadingDigits
    rw [List.all_eq_true]
    intro c hc
    exact List.mem_takeWhile_imp hc
  have hlt := foldl_digits_lt (leadingDigits (unsignedPart token)) 0 hall
  have hpow : 10 ^ (leadingDigits (unsignedPart token)).length ≤ 10 ^ 19 :=
    Nat.pow_le_pow_right (by decide) h
  have hval : decimalValue (leadingDigits (unsignedPart token)) ≤ maxUint64 := by
    unfold decimalValue maxUint64
    have h19 : (10 : Nat) ^ 19 = 10000000000000000000 := by norm_num
    omega
  simp [rejectedValue, hval]

/-- C15 as stated fails: the token `"99999999999999999999x"` is not empty, holds no
white space, is neither `"+"` nor `"-"` and is not a decimal integer literal, yet
`parse` does not push `Number{0}` for it: `Atoi` meets a range error at the
twentieth digit, before it reaches the `x`, and returns the largest `int`, which
`parse` pushes. -/
theorem C15_long_digit_run_counterexample :
    "99999999999999999999x" ≠ "" ∧
    (∀ c ∈ "99999999999999999999x".data, isSpace c = false) ∧
    "99999999999999999999x" ≠ "+" ∧ "99999999999999999999x" ≠ "-" ∧
    isDecimalLiteral "99999999999999999999x" = false ∧
    Atoi "99999999999999999999x" = (9223372036854775807, some NumError.ErrRange) ∧
    parseStep [] "99999999999999999999x"
      = some [Expression.Number 9223372036854775807] ∧
    parse "99999999999999999999x" = some (Expression.Number 9223372036854775807) ∧
    ¬ (parseStep [] "99999999999999999999x" = some [Expression.Number 0]) ∧
    ¬ ((parse "99999999999999999999x").map Interpret = some 0) := by
  refine ⟨by decide, by decide, by decide, by decide, by decide, by decide, by decide,
    by decide, by decide, by decide⟩

/-- C15 (amended): for every token that is not empty, holds no white space, is
neither `"+"` nor `"-"` and is not a decimal integer literal, `Atoi` returns an
error, `parse` drops the error and pushes `Number{v}` on any stack, where `v` is
the value that `Atoi` returned with the error: 0, unless the digits between the
optional sign and the first other character already denote a number above
`2^64 - 1`, in which case `v` is the largest `int` (the smallest after a minus
sign).  So `v` is 0 whenever those digits are at most 19.  `parse("abc")` gives 0
and `parse("7 x +")` gives 7. -/
theorem C15_bad_number_keeps_atoi_value (stack : List Expression) (token : String)
    (hne : token ≠ "") (hws : ∀ c ∈ token.data, isSpace c = false)
    (hplus : token ≠ "+") (hminus : token ≠ "-")
    (hlit : isDecimalLiteral token = false) :
    (Atoi token).1 = rejectedValue token ∧
    (Atoi token).2 ≠ none ∧
    parseStep stack token = some (stack ++ [Expression.Number (rejectedValue token)]) ∧
    Fields token = [token] ∧
    parse token = some (Expression.Number (rejectedValue token)) ∧
    (parse token).map Interpret = some (rejectedValue token) ∧
    (decimalValue (leadingDigits (unsignedPart token)) ≤ maxUint64 →
      Atoi token = (0, some NumError.ErrSyntax) ∧
      parseStep stack token = some (stack ++ [Expression.Number 0]) ∧
      parse token = some (Expression.Number 0)) ∧
    (maxUint64 < decimalValue (leadingDigits (unsignedPart token)) →
      Atoi token
        = (if token.data.head? = some '-' then minInt else maxInt,
           some NumError.ErrRange)) ∧
    ((leadingDigits (unsignedPart token)).length ≤ 19 → rejectedValue token = 0) ∧
    (parse "abc").map Interpret = some 0 ∧
    (parse "7 x +").map Interpret = some 7 := by
  have hat := atoi_of_rejected token hlit
  have hval : (Atoi token).1 = rejectedValue token := by rw [hat]
  have hstep : ∀ st : List Expression,
      parseStep st token = some (st ++ [Expression.Number (rejectedValue token)]) := by
    intro st
    rw [parseStep_operand st token hplus hminus, hval]
  have hfields := fields_single_token token hne hws
  have hparse : parse token = some (Expression.Number (rejectedValue token)) := by
    unfold parse
    rw [hfields]
    simp [parseLoop, hstep]
  refine ⟨hval, ?_, hstep stack, hfields, hparse, ?_, ?_, ?_,
    rejectedValue_of_short token, by decide, by decide⟩
  · rw [hat]; simp
  · rw [hparse]; rfl
  · intro hsmall
    have hzero : rejectedValue token = 0 := by simp [rejectedValue, hsmall]
    refine ⟨?_, ?_, ?_⟩
    · rw [hat, hzero]; simp [hsmall]
    · rw [hstep stack, hzero]
    · rw [hparse, hzero]
  · intro hbig
    have hnot : ¬ decimalValue (leadingDigits (unsignedPart token)) ≤ maxUint64 :=
      Nat.not_le_of_lt hbig
    rw [hat]
    by_cases hneg : token.data.head? = some '-'
    · simp [rejectedValue, hnot, hneg]
    · simp [rejectedValue, hnot, hneg]

/-- C15 (amended) on the token `"abc"`, which gives 0, and on the token
`"99999999999999999999x"`, which gives the largest `int`. -/
theorem C15_bad_number_keeps_atoi_value_witness :
    "abc" ≠ "" ∧ (∀ c ∈ "abc".data, isSpace c = false) ∧ "abc" ≠ "+" ∧ "abc" ≠ "-" ∧
    isDecimalLiteral "abc" = false ∧
    parseStep [Expression.Number 7] "abc"
      = some ([Expression.Number 7] ++ [Expression.Number (rejectedValue "abc")]) ∧
    rejectedValue "abc" = 0 ∧
    parse "99999999999999999999x"
      = some (Expression.Number (rejectedValue "99999999999999999999x")) ∧
    rejectedValue "99999999999999999999x" = 9223372036854775807 :=
  ⟨by decide, by decide, by decide, by decide, by decide,
   (C15_bad_number_keeps_atoi_value [Expression.Number 7] "abc" (by decide) (by decide)
      (by decide) (by decide) (by decide)).2.2.1,
   by decide,
   (C15_bad_number_keeps_atoi_value [] "99999999999999999999x" (by decide) (by decide)
      (by decide) (by decide) (by decide)).2.2.2.2.1,
   by decide⟩

theorem wrapInt_literal (token : String) (h : isIntLiteral token = true) :
    wrapInt (literalValue token) = literalValue token := by
  unfold isIntLiteral at h
  simp only [Bool.and_eq_true, decide_eq_true_eq] at h
  exact wrapInt_of_inRange _ h.1.2 h.2

/-- The loop of `parse` follows the standard stack evaluation: `rs` is the
expression stack with its top first, and the values of its expressions are the
values of the evaluation stack reduced by `wrapInt`. -/
theorem parseLoop_follows_standard (tokens : List String) (rs : List Expression)
    (zs zs1 : List Int)
    (hfit : ∀ t ∈ tokens, isDecimalLiteral t = true → isIntLiteral t = true)
    (hrel : rs.map Interpret = zs.map wrapInt)
    (h : evalStandard tokens zs = some zs1) :
    ∃ rs1 : List Expression,
      parseLoop tokens rs.reverse = some rs1.reverse ∧
      rs1.map Interpret = zs1.map wrapInt := by
  induction tokens generalizing rs zs with
  | nil =>
    simp only [evalStandard, Option.some.injEq] at h
    subst h
    exact ⟨rs, rfl, hrel⟩
  | cons token tokens ih =>
    have hfit1 : ∀ t ∈ tokens, isDecimalLiteral t = true → isIntLiteral t = true :=
      fun t ht => hfit t (List.mem_cons_of_mem _ ht)
    by_cases hplus : token = "+"
    · subst hplus
      match zs, h with
      | [], h => simp [evalStandard] at h
      | [b], h => simp [evalStandard] at h
      | b :: a :: rest, h =>
        match rs, hrel with
        | [], hrel => simp at hrel
        | [e], hrel => simp at hrel
        | eb :: ea :: rrest, hrel =>
          simp only [List.map_cons, List.cons.injEq] at hrel
          obtain ⟨hb, ha, hrest⟩ := hrel
          simp only [evalStandard, if_true] at h
          have hstep : parseStep (eb :: ea :: rrest).reverse "+"
              = some (Expression.Plus ea eb :: rrest).reverse := by
            have := parseStep_plus rrest.reverse ea eb
            simpa using this
          have hrel1 : (Expression.Plus ea eb :: rrest).map Interpret
              = ((a + b) :: rest).map wrapInt := by
            simp only [List.map_cons, Interpret, ha, hb, wrapInt_add, hrest]
          obtain ⟨rs1, h1, h2⟩ := ih _ _ hfit1 hrel1 h
          exact ⟨rs1, by simp only [parseLoop, hstep]; exact h1, h2⟩
    · by_cases hminus : token = "-"
      · subst hminus
        match zs, h with
        | [], h => simp [evalStandard, hplus] at h
        | [b], h => simp [evalStandard, hplus] at h
        | b :: a :: rest, h =>
          match rs, hrel with
          | [], hrel => simp at hrel
          | [e], hrel => simp at hrel
          | eb :: ea :: rrest, hrel =>
            simp only [List.map_cons, List.cons.injEq] at hrel
            obtain ⟨hb, ha, hrest⟩ := hrel
            simp only [evalStandard, hplus, if_false, if_true] at h
            have hstep : parseStep (eb :: ea :: rrest).reverse "-"
                = some (Expression.Minus ea eb :: rrest).reverse := by
              have := parseStep_minus rrest.reverse ea eb
              simpa using this
            have hrel1 : (Expression.Minus ea eb :: rrest).map Interpret
                = ((a - b) :: rest).map wrapInt := by
              simp only [List.map_cons, Interpret, ha, hb, wrapInt_sub, hrest]
            obtain ⟨rs1, h1, h2⟩ := ih _ _ hfit1 hrel1 h
            exact ⟨rs1, by simp only [parseLoop, hstep]; exact h1, h2⟩
      · simp only [evalStandard, hplus, hminus, if_false] at h
        by_cases hdec : isDecimalLiteral token = true
        · simp only [hdec, if_true] at h
          have hint : isIntLiteral token = true := hfit token (by simp) hdec
          have hstep : parseStep rs.reverse token
              = some (Expression.Number (literalValue token) :: rs).reverse := by
            rw [parseStep_operand _ token hplus hminus, atoi_of_intLiteral token hint]
            simp
          have hrel1 : (Expression.Number (literalValue token) :: rs).map Interpret
              = (literalValue token :: zs).map wrapInt := by
            simp only [List.map_cons, Interpret, wrapInt_literal token hint, hrel]
          obtain ⟨rs1, h1, h2⟩ := ih _ _ hfit1 hrel1 h
          exact ⟨rs1, by simp only [parseLoop, hstep]; exact h1, h2⟩
        · simp [hdec] at h

/-- C16 as stated fails: `"9223372036854775807 1 +"` is a well-formed postfix
expression of two literals that fit `int`; its standard stack evaluation gives
9223372036854775808, but `parse(s).Interpret()` is -9223372036854775808, because
`+` on Go's `int` wraps.  And for the literal `"99999999999999999999"`, which does
not fit `int`, the result is the largest `int`, not the literal's value. -/
theorem C16_int_overflow_counterexample :
    evalStandard (Fields "9223372036854775807 1 +") [] = some [9223372036854775808] ∧
    (∀ t ∈ Fields "9223372036854775807 1 +",
      isDecimalLiteral t = true → isIntLiteral t = true) ∧
    (parse "9223372036854775807 1 +").map Interpret = some (-9223372036854775808) ∧
    ¬ ((parse "9223372036854775807 1 +").map Interpret = some 9223372036854775808) ∧
    evalStandard (Fields "99999999999999999999") [] = some [99999999999999999999] ∧
    (parse "99999999999999999999").map Interpret = some 9223372036854775807 ∧
    ¬ ((parse "99999999999999999999").map Interpret = some 99999999999999999999) := by
  refine ⟨by decide, by decide, by decide, by decide, by decide, by decide, by decide⟩

/-- C16 (amended): for every input whose tokens form a well-formed postfix
expression (the standard stack evaluation in exact integers ends with exactly
one value `z`) and whose literals all fit `int`, `parse` returns an expression
without a panic, and its `Interpret` is `z` reduced into the range of `int`
modulo `2^64`; it is `z` itself whenever `z` fits `int`.  The driver prints 6 for
`"5 3 + 2 -"`. -/
theorem C16_parse_interpret_is_wrapped_stack_evaluation (s : String) (z : Int)
    (hwf : evalStandard (Fields s) [] = some [z])
    (hfit : ∀ t ∈ Fields s, isDecimalLiteral t = true → isIntLiteral t = true) :
    (parse s).isSome = true ∧
    (parse s).map Interpret = some (wrapInt z) ∧
    (minInt ≤ wrapInt z ∧ wrapInt z ≤ maxInt ∧
      (wrapInt z - z) % 18446744073709551616 = 0) ∧
    (minInt ≤ z → z ≤ maxInt → (parse s).map Interpret = some z) ∧
    main = some "Result of \x275 3 + 2 -\x27 is 6" := by
  obtain ⟨rs1, h1, h2⟩ := parseLoop_follows_standard (Fields s) [] [] [z] hfit rfl hwf
  have hparse : (parse s).map Interpret = some (wrapInt z) := by
    match rs1, h1, h2 with
    | [], _, h2 => simp at h2
    | _ :: _ :: _, _, h2 => simp at h2
    | [e], h1, h2 =>
      simp only [List.map_cons, List.map_nil, List.cons.injEq, and_true] at h2
      simp only [List.reverse_nil, List.reverse_cons, List.nil_append] at h1
      simp [parse, h1, h2]
  refine ⟨?_, hparse, ?_, ?_, by decide⟩
  · cases hp : parse s with
    | none => rw [hp] at hparse; simp at hparse
    | some e => rfl
  · unfold wrapInt minInt maxInt
    omega
  · intro ha hb
    rw [hparse, wrapInt_of_inRange z ha hb]

/-- C16 (amended) on the driver's expression `"5 3 + 2 -"`, whose stack evaluation
ends with the single value 6. -/
theorem C16_parse_interpret_is_wrapped_stack_evaluation_witness :
    evalStandard (Fields "5 3 + 2 -") [] = some [6] ∧
    (∀ t ∈ Fields "5 3 + 2 -", isDecimalLiteral t = true → isIntLiteral t = true) ∧
    (parse "5 3 + 2 -").map Interpret = some (wrapInt 6) ∧
    wrapInt 6 = 6 :=
  ⟨by decide, by decide,
   (C16_parse_interpret_is_wrapped_stack_evaluation "5 3 + 2 -" 6 (by decide)
      (by decide)).2.1,
   by decide⟩

end InterpreterPattern
